import Mathlib

set_option maxRecDepth 100000
set_option maxHeartbeats 1000000

/-!
# Verification of the slab allocator and FAT32 engine

This file gives a shallow embedding of the two cores of the repository:

* the segregated-fit slab allocator (`slaballoc/src/allocator.rs`,
  `slaballoc/src/util.rs`), and
* the FAT32 volume engine (`fat32/src/lib.rs`, `fat32/src/dir_entry.rs`),

and proves/refutes the spec's testable properties about them.

Machine integers are modelled as `Nat` with an explicit `% 2 ^ 64`
where `usize` overflow matters (the `align_up` helper), and an explicit
`% 2 ^ 32` where a `u32` cast truncates.  Raw pointers are modelled as
`Nat` addresses with `0` playing the role of the null pointer.  Disk
buffers are modelled as a length together with a byte-valued function.
-/

/-! ## Slab allocator: definitions (from `slaballoc/src/util.rs` and
`slaballoc/src/allocator.rs`) -/

/-- `align_up` from `util.rs`: `(x + align - 1) & !(align - 1)` computed on a
64-bit `usize`.  In two's complement `!(align - 1) = 2^64 - align` for
`align ≥ 1`; every call site passes a power of two `align ≥ 1`. -/
def align_up (x align : Nat) : Nat :=
  ((x + align - 1) % 2 ^ 64) &&& (2 ^ 64 - align)

/-- `is_power_of_two` from `util.rs`: `x != 0 && (x & (x - 1)) == 0`. -/
def is_power_of_two (x : Nat) : Bool :=
  x != 0 && (x &&& (x - 1)) == 0

/-- `CHUNK_SIZE` from `allocator.rs`. -/
def CHUNK_SIZE : Nat := 4096

/-- `SIZE_CLASSES` from `allocator.rs`. -/
def SIZE_CLASSES : List Nat := [8, 16, 32, 64, 128, 256, 512, 1024, 2048, 4096]

/-- State of `SlabAllocator` from `allocator.rs`.  The per-class intrusive
freelists (head pointer + in-block next pointers) are modelled as lists of
block addresses, head first; the array `[Cache; SIZE_CLASSES.len()]` is a
list of length `SIZE_CLASSES.length`. -/
structure SlabAllocator where
  heap_start : Nat
  heap_end : Nat
  bump : Nat
  caches : List (List Nat)
  initialized : Bool

/-- `SlabAllocator::new`. -/
def SlabAllocator.new : SlabAllocator :=
  ⟨0, 0, 0, List.replicate SIZE_CLASSES.length [], false⟩

/-- `SlabAllocator::init`.  `heap_start + heap_size` is a wrapping `usize`
addition. -/
def SlabAllocator.init (a : SlabAllocator) (heap_start heap_size : Nat) :
    SlabAllocator :=
  { a with
    heap_start := heap_start
    heap_end := (heap_start + heap_size) % 2 ^ 64
    bump := heap_start
    initialized := true }

/-- The scan loop of `class_index_for`: first index `i` (counting from the
given start) whose class size is `≥ need`. -/
def findClass (need : Nat) : List Nat → Nat → Option Nat
  | [], _ => none
  | cls :: rest, i => if need ≤ cls then some i else findClass need rest (i + 1)

/-- `SlabAllocator::class_index_for`: `size.max(align)` bucketed into
`SIZE_CLASSES`. -/
def SlabAllocator.class_index_for (size align : Nat) : Option Nat :=
  findClass (max size align) SIZE_CLASSES 0

/-- `usize::checked_add`. -/
def checked_add (a b : Nat) : Option Nat :=
  if a + b < 2 ^ 64 then some (a + b) else none

/-- `SlabAllocator::alloc_from_bump`.  Returns the allocated address (or
`none`) together with the updated state.  Note the source advances `bump`
*before* `NonNull::new` can fail on a zero address, which the model
reproduces.  The zero-fill of the returned region has no observable effect
on the allocator state and is not modelled. -/
def SlabAllocator.alloc_from_bump (a : SlabAllocator) (size align : Nat) :
    Option Nat × SlabAllocator :=
  let start := align_up a.bump align
  match checked_add start size with
  | none => (none, a)
  | some e =>
    if e > a.heap_end then (none, a)
    else
      let a' := { a with bump := e }
      if start = 0 then (none, a') else (some start, a')

/-- The carve loop of `refill_cache`: starting at `off`, push `n` blocks of
size `block_size` onto the freelist (so the head ends up being the block at
the highest address). -/
def pushBlocks (block_size : Nat) : Nat → Nat → List Nat → List Nat
  | _, 0, cache => cache
  | off, n + 1, cache => pushBlocks block_size (off + block_size) n (off :: cache)

/-- `SlabAllocator::refill_cache`.  The loop `while off + block_size <=
chunk_end` runs exactly `CHUNK_SIZE / block_size` times (every call site has
`0 < block_size ≤ CHUNK_SIZE`); `Layout::from_size_align(CHUNK_SIZE,
CHUNK_SIZE)` always succeeds. -/
def SlabAllocator.refill_cache (a : SlabAllocator) (idx : Nat) :
    Bool × SlabAllocator :=
  let block_size := SIZE_CLASSES.getD idx 0
  match a.alloc_from_bump CHUNK_SIZE CHUNK_SIZE with
  | (none, a') => (false, a')
  | (some chunk, a') =>
    let n := CHUNK_SIZE / block_size
    let cache' := pushBlocks block_size chunk n (a'.caches.getD idx [])
    (true, { a' with caches := a'.caches.set idx cache' })

/-- `SlabAllocator::alloc`.  Returns the address (0 = null) and the updated
state. -/
def SlabAllocator.alloc (a : SlabAllocator) (size align : Nat) :
    Nat × SlabAllocator :=
  if ¬ a.initialized then (0, a)
  else
    match SlabAllocator.class_index_for size align with
    | some idx =>
      let r := if (a.caches.getD idx []).isEmpty then a.refill_cache idx
               else (true, a)
      if ¬ r.1 then (0, r.2)
      else
        match r.2.caches.getD idx [] with
        | [] => (0, r.2)
        | hd :: tl => (hd, { r.2 with caches := r.2.caches.set idx tl })
    | none =>
      match a.alloc_from_bump size align with
      | (some p, a') => (p, a')
      | (none, a') => (0, a')

/-- `SlabAllocator::dealloc`. -/
def SlabAllocator.dealloc (a : SlabAllocator) (ptr size align : Nat) :
    SlabAllocator :=
  if ptr = 0 ∨ ¬ a.initialized then a
  else
    match SlabAllocator.class_index_for size align with
    | some idx =>
      { a with caches := a.caches.set idx (ptr :: a.caches.getD idx []) }
    | none => a

/-- A call against the allocator, for reasoning about call sequences. -/
inductive AllocOp where
  | alloc (size align : Nat)
  | dealloc (ptr size align : Nat)

/-- The `Layout` contract of an `alloc` call (`align` is a power of two),
plus absence of `usize` wrap-around in `align_up` relative to the arena end.
`dealloc` is unconstrained. -/
def AllocOp.valid (heap_end : Nat) : AllocOp → Prop
  | .alloc _ align => (∃ k, align = 2 ^ k) ∧ heap_end + align ≤ 2 ^ 64
  | .dealloc _ _ _ => True

/-- Effect of one call on the allocator state. -/
def stepOp (a : SlabAllocator) : AllocOp → SlabAllocator
  | .alloc s al => (a.alloc s al).2
  | .dealloc p s al => a.dealloc p s al

/-- Effect of a finite sequence of calls. -/
def runOps (a : SlabAllocator) (ops : List AllocOp) : SlabAllocator :=
  ops.foldl stepOp a

/-! ## FAT32 engine: definitions (from `fat32/src/lib.rs` and
`fat32/src/dir_entry.rs`) -/

/-- `FatError` from `lib.rs`. -/
inductive FatError where
  | BufferTooSmall
  | NotFat32
  | OutOfBounds
  | InvalidCluster
  | NotAFile
  | NotADirectory
  | PathNotFound
  | InvalidName
  | NoSpaceLeft
  | Other
  deriving DecidableEq

instance decEqExcept {ε α : Type} [DecidableEq ε] [DecidableEq α] :
    DecidableEq (Except ε α) := fun a b =>
  match a, b with
  | .ok x, .ok y =>
    if h : x = y then isTrue (by rw [h])
    else isFalse (fun hc => by cases hc; exact h rfl)
  | .error x, .error y =>
    if h : x = y then isTrue (by rw [h])
    else isFalse (fun hc => by cases hc; exact h rfl)
  | .ok _, .error _ => isFalse (fun hc => by cases hc)
  | .error _, .ok _ => isFalse (fun hc => by cases hc)

/-- The in-memory disk image: a byte buffer of length `len`, modelled as a
function from byte offsets to byte values (`u8` as `Nat`). -/
structure Disk where
  len : Nat
  byteAt : Nat → Nat

/-- The byte slice `disk[off..off + n]`. -/
def readRange (d : Disk) (off n : Nat) : List Nat :=
  (List.range n).map (fun i => d.byteAt (off + i))

/-- `disk[off..off + bs.length].copy_from_slice(bs)`. -/
def writeBytes (d : Disk) (off : Nat) (bs : List Nat) : Disk :=
  { len := d.len
    byteAt := fun i =>
      if off ≤ i ∧ i < off + bs.length then bs.getD (i - off) 0 else d.byteAt i }

/-- `Attributes` from `dir_entry.rs`. -/
structure Attributes where
  read_only : Bool
  hidden : Bool
  system : Bool
  volume_id : Bool
  directory : Bool
  archive : Bool
  deriving DecidableEq

/-- `Attributes::from_byte`. -/
def Attributes.from_byte (b : Nat) : Attributes :=
  ⟨b &&& 0x01 != 0, b &&& 0x02 != 0, b &&& 0x04 != 0,
   b &&& 0x08 != 0, b &&& 0x10 != 0, b &&& 0x20 != 0⟩

/-- `DirEntry` from `dir_entry.rs`. -/
structure DirEntry where
  name : String
  attrs : Attributes
  first_cluster : Nat
  size : Nat
  deriving DecidableEq

/-- `decode_ascii_trim` from `dir_entry.rs`: strip trailing `b' '` padding,
then decode each byte as a char. -/
def decode_ascii_trim (bytes : List Nat) : String :=
  String.mk (((bytes.reverse.dropWhile (· == 32)).reverse).map Char.ofNat)

/-- `DirEntry::parse` from `dir_entry.rs`. -/
def DirEntry.parse (entry : List Nat) : Option DirEntry :=
  if entry.length < 32 then none
  else if entry.getD 0 0 = 0x00 ∨ entry.getD 0 0 = 0xE5 then none
  else
    let attrs := Attributes.from_byte (entry.getD 11 0)
    if attrs.volume_id then none
    else
      let name := decode_ascii_trim (entry.take 8)
      let ext := decode_ascii_trim ((entry.drop 8).take 3)
      let full_name := if ext ≠ "" then name ++ "." ++ ext else name
      let first_cluster_high := entry.getD 20 0 + 256 * entry.getD 21 0
      let first_cluster_low := entry.getD 26 0 + 256 * entry.getD 27 0
      let first_cluster := (first_cluster_high <<< 16) ||| first_cluster_low
      let size := entry.getD 28 0 + 256 * entry.getD 29 0 +
        65536 * entry.getD 30 0 + 16777216 * entry.getD 31 0
      some ⟨full_name, attrs, first_cluster, size⟩

/-- `DirEntry::is_dir`. -/
def DirEntry.is_dir (e : DirEntry) : Bool := e.attrs.directory

/-- `DirEntry::is_file`. -/
def DirEntry.is_file (e : DirEntry) : Bool := !e.attrs.directory

/-- `BpbParams` from `lib.rs`. -/
structure BpbParams where
  bytes_per_sector : Nat
  sectors_per_cluster : Nat
  reserved_sectors : Nat
  num_fats : Nat
  sectors_per_fat : Nat
  root_cluster : Nat
  deriving DecidableEq

/-- `parse_bpb` from `lib.rs`. -/
def parse_bpb (d : Disk) : Except FatError BpbParams :=
  if d.len < 512 then .error .BufferTooSmall
  else
    let bytes_per_sector := d.byteAt 11 + 256 * d.byteAt 12
    let sectors_per_cluster := d.byteAt 13
    let reserved_sectors := d.byteAt 14 + 256 * d.byteAt 15
    let num_fats := d.byteAt 16
    let sectors_per_fat := d.byteAt 36 + 256 * d.byteAt 37 +
      65536 * d.byteAt 38 + 16777216 * d.byteAt 39
    let root_cluster := d.byteAt 44 + 256 * d.byteAt 45 +
      65536 * d.byteAt 46 + 16777216 * d.byteAt 47
    if bytes_per_sector = 0 ∨ sectors_per_cluster = 0 ∨ num_fats = 0 then
      .error .NotFat32
    else if sectors_per_fat = 0 then .error .NotFat32
    else .ok ⟨bytes_per_sector, sectors_per_cluster, reserved_sectors,
              num_fats, sectors_per_fat, root_cluster⟩

/-- A FAT32 view over a disk image.  The source has two structs `Fat32` and
`Fat32Mut` with identical fields (the views differ only in the mutability of
the borrow); one Lean structure serves for both, with the `Fat32Mut` methods
returning the updated view. -/
structure Fat32 where
  disk : Disk
  bytes_per_sector : Nat
  sectors_per_cluster : Nat
  reserved_sectors : Nat
  num_fats : Nat
  sectors_per_fat : Nat
  root_cluster : Nat

/-- `Fat32::new` (and `Fat32Mut::new`, which reads the same fields from the
same `parse_bpb`). -/
def Fat32.new (d : Disk) : Except FatError Fat32 :=
  match parse_bpb d with
  | .error e => .error e
  | .ok p => .ok ⟨d, p.bytes_per_sector, p.sectors_per_cluster,
      p.reserved_sectors, p.num_fats, p.sectors_per_fat, p.root_cluster⟩

/-- `cluster_size`. -/
def Fat32.cluster_size (fs : Fat32) : Nat :=
  fs.bytes_per_sector * fs.sectors_per_cluster

/-- `fat_start_byte`. -/
def Fat32.fat_start_byte (fs : Fat32) : Nat :=
  fs.reserved_sectors * fs.bytes_per_sector

/-- `fat_bytes_len`. -/
def Fat32.fat_bytes_len (fs : Fat32) : Nat :=
  fs.sectors_per_fat * fs.bytes_per_sector

/-- `data_start_byte`. -/
def Fat32.data_start_byte (fs : Fat32) : Nat :=
  fs.fat_start_byte + (fs.num_fats * fs.sectors_per_fat) * fs.bytes_per_sector

/-- `cluster_to_offset`. -/
def Fat32.cluster_to_offset (fs : Fat32) (cluster : Nat) : Except FatError Nat :=
  if cluster < 2 then .error .InvalidCluster
  else
    let offset := fs.data_start_byte + (cluster - 2) * fs.cluster_size
    if offset ≥ fs.disk.len then .error .OutOfBounds
    else .ok offset

/-- `read_cluster`. -/
def Fat32.read_cluster (fs : Fat32) (cluster : Nat) : Except FatError (List Nat) :=
  match fs.cluster_to_offset cluster with
  | .error e => .error e
  | .ok offset =>
    if offset + fs.cluster_size > fs.disk.len then .error .OutOfBounds
    else .ok (readRange fs.disk offset fs.cluster_size)

/-- `read_fat_entry` (identical in the RO and RW views): 32-bit little-endian
load at `fat_start + cluster * 4`, masked to the low 28 bits. -/
def Fat32.read_fat_entry (fs : Fat32) (cluster : Nat) : Except FatError Nat :=
  let entry_offset := fs.fat_start_byte + cluster * 4
  if entry_offset + 4 > fs.disk.len then .error .OutOfBounds
  else
    .ok ((fs.disk.byteAt entry_offset + 256 * fs.disk.byteAt (entry_offset + 1) +
      65536 * fs.disk.byteAt (entry_offset + 2) +
      16777216 * fs.disk.byteAt (entry_offset + 3)) &&& 0x0FFFFFFF)

/-- The loop body of `follow_chain`: the accumulator holds the chain so far
in reverse; the `Nat` fuel is the remaining number of loop iterations.  When
the fuel runs out the chain gathered so far is returned `Ok` (the source
`for` loop simply ends). -/
def Fat32.follow_go (fs : Fat32) : Nat → List Nat → Nat → Except FatError (List Nat)
  | _, acc, 0 => .ok acc.reverse
  | current, acc, fuel + 1 =>
    match fs.read_fat_entry current with
    | .error e => .error e
    | .ok next =>
      if 0x0FFFFFF8 ≤ next then .ok (current :: acc).reverse
      else if next < 2 then .error .InvalidCluster
      else fs.follow_go next (current :: acc) fuel

/-- `follow_chain` (identical in the RO and RW views). -/
def Fat32.follow_chain (fs : Fat32) (start_cluster max_clusters : Nat) :
    Except FatError (List Nat) :=
  if start_cluster < 2 then .error .InvalidCluster
  else fs.follow_go start_cluster [] max_clusters

/-- Structural worker for `chunkList`; the fuel only needs to be at least
the list length (each step drops at least one element). -/
def chunkListFuel : Nat → List Nat → List (List Nat)
  | _, [] => []
  | 0, _ :: _ => []
  | fuel + 1, a :: l => ((a :: l).take 32) :: chunkListFuel fuel ((a :: l).drop 32)

/-- `data.chunks(32)`. -/
def chunkList (l : List Nat) : List (List Nat) := chunkListFuel l.length l

/-- The per-cluster entry scan of `list_dir_cluster`: returns the decoded
entries of this cluster plus whether a `0x00` terminator was seen. -/
def scan_chunks : List (List Nat) → List DirEntry × Bool
  | [] => ([], false)
  | c :: rest =>
    if c.length < 32 then ([], false)
    else if c.getD 0 0 = 0 then ([], true)
    else
      match DirEntry.parse c with
      | some e => let r := scan_chunks rest; (e :: r.1, r.2)
      | none => scan_chunks rest

/-- The outer cluster loop of `list_dir_cluster`: stop at the first cluster
whose scan saw the terminator. -/
def Fat32.scan_dir_clusters (fs : Fat32) : List Nat → Except FatError (List DirEntry)
  | [] => .ok []
  | cl :: rest =>
    match fs.read_cluster cl with
    | .error e => .error e
    | .ok data =>
      let r := scan_chunks (chunkList data)
      if r.2 then .ok r.1
      else
        match fs.scan_dir_clusters rest with
        | .error e => .error e
        | .ok more => .ok (r.1 ++ more)

/-- `list_dir_cluster`. -/
def Fat32.list_dir_cluster (fs : Fat32) (start_cluster : Nat) :
    Except FatError (List DirEntry) :=
  match fs.follow_chain start_cluster 4096 with
  | .error e => .error e
  | .ok chain => fs.scan_dir_clusters chain

/-- `list_root`. -/
def Fat32.list_root (fs : Fat32) : Except FatError (List DirEntry) :=
  fs.list_dir_cluster fs.root_cluster

/-- `u8::to_ascii_uppercase` on a byte value. -/
def asciiUpperNat (b : Nat) : Nat := if 97 ≤ b ∧ b ≤ 122 then b - 32 else b

/-- Rust `str::starts_with('/')`. -/
def startsWithSlash (s : String) : Bool :=
  match s.toList with
  | '/' :: _ => true
  | _ => false

/-- Rust `str::split(sep)` on a char list: every separator occurrence splits,
empty segments included. -/
def splitChar (sep : Char) : List Char → List (List Char)
  | [] => [[]]
  | c :: rest =>
    if c == sep then [] :: splitChar sep rest
    else
      match splitChar sep rest with
      | s :: ss => (c :: s) :: ss
      | [] => [[c]]

/-- Rust `str::split('/')` producing strings. -/
def splitSlash (s : String) : List String :=
  (splitChar '/' s.toList).map String.mk

/-- Rust `str::trim_end_matches('/')`. -/
def trimEndSlashes (s : String) : String :=
  String.mk ((s.toList.reverse.dropWhile (· == '/')).reverse)

/-- `normalize_name` from `lib.rs`: ASCII-uppercase every char. -/
def normalize_name (s : String) : String :=
  String.mk (s.toList.map (fun c => Char.ofNat (asciiUpperNat c.toNat)))

/-- The component loop of `open_path`. -/
def Fat32.open_go (fs : Fat32) :
    List String → Nat → Option DirEntry → Except FatError (Option DirEntry)
  | [], _, last => .ok last
  | part :: rest, current_cluster, _ =>
    match fs.list_dir_cluster current_cluster with
    | .error e => .error e
    | .ok entries =>
      match entries.find? (fun e => normalize_name e.name == normalize_name part) with
      | some e => fs.open_go rest e.first_cluster (some e)
      | none => .ok none

/-- `open_path`. -/
def Fat32.open_path (fs : Fat32) (path : String) : Except FatError (Option DirEntry) :=
  if ¬ startsWithSlash path then .error .Other
  else if path == "/" then .ok none
  else fs.open_go ((splitSlash path).filter (fun s => !s.isEmpty)) fs.root_cluster none

/-- The cluster loop of `read_file`: gather `min remaining cluster_size`
bytes from each cluster, stopping when `remaining` hits 0. -/
def Fat32.read_file_go (fs : Fat32) : Nat → List Nat → List Nat → Except FatError (List Nat)
  | _, acc, [] => .ok acc
  | remaining, acc, cl :: rest =>
    match fs.read_cluster cl with
    | .error e => .error e
    | .ok cluster =>
      let tk := min remaining fs.cluster_size
      let acc' := acc ++ cluster.take tk
      let remaining' := remaining - tk
      if remaining' = 0 then .ok acc' else fs.read_file_go remaining' acc' rest

/-- `read_file`. -/
def Fat32.read_file (fs : Fat32) (entry : DirEntry) : Except FatError (List Nat) :=
  if ¬ entry.is_file then .error .NotAFile
  else if entry.size = 0 then .ok []
  else if entry.first_cluster < 2 then .error .InvalidCluster
  else
    match fs.follow_chain entry.first_cluster 4096 with
    | .error e => .error e
    | .ok chain => fs.read_file_go entry.size [] chain

/-- `read_file_by_path`. -/
def Fat32.read_file_by_path (fs : Fat32) (path : String) :
    Except FatError (Option (List Nat)) :=
  match fs.open_path path with
  | .error e => .error e
  | .ok none => .ok none
  | .ok (some entry) =>
    if ¬ entry.is_file then .error .NotAFile
    else
      match fs.read_file entry with
      | .error e => .error e
      | .ok bytes => .ok (some bytes)

/-- `list_dir_path`. -/
def Fat32.list_dir_path (fs : Fat32) (path : String) :
    Except FatError (List DirEntry) :=
  if path == "/" then fs.list_root
  else
    match fs.open_path path with
    | .error e => .error e
    | .ok none => .error .PathNotFound
    | .ok (some entry) =>
      if ¬ entry.is_dir then .error .NotADirectory
      else fs.list_dir_cluster entry.first_cluster

/-! ## FAT32 write view (`Fat32Mut`) -/

/-- `FAT32_EOC` from `lib.rs`. -/
def FAT32_EOC : Nat := 0x0FFFFFFF

/-- `u32::to_le_bytes`. -/
def u32LEBytes (v : Nat) : List Nat :=
  [v % 256, v / 256 % 256, v / 65536 % 256, v / 16777216 % 256]

/-- `div_ceil` from `lib.rs`. -/
def div_ceil (a b : Nat) : Nat := if b = 0 then 0 else (a + b - 1) / b

/-- `Fat32Mut::max_cluster_number`.  The `as u32` casts truncate mod `2^32`. -/
def Fat32.max_cluster_number (fs : Fat32) : Except FatError Nat :=
  let data_start := fs.data_start_byte
  if data_start ≥ fs.disk.len then .error .OutOfBounds
  else
    let cs := fs.cluster_size
    if cs = 0 then .error .NotFat32
    else
      let data_len := fs.disk.len - data_start
      let data_clusters := (data_len / cs) % 2 ^ 32
      if data_clusters = 0 then .error .NotFat32
      else
        let last_by_data := (2 + data_clusters - 1) % 2 ^ 32
        let fat_entries := (fs.fat_bytes_len / 4) % 2 ^ 32
        if fat_entries < 3 then .error .NotFat32
        else
          let last_by_fat := fat_entries - 1
          .ok (min last_by_data last_by_fat)

/-- The `for i in 0..num_fats` loop of `write_fat_entry_all`: write the
4-byte value into FAT copy `i`, for the remaining number of copies; on an
out-of-bounds copy the error is returned with the copies written so far
still in place. -/
def Fat32.write_fat_go : Fat32 → List Nat → Nat → Nat → Nat → Except FatError Unit × Fat32
  | fs, _, _, _, 0 => (.ok (), fs)
  | fs, bytes, cluster, i, m + 1 =>
    let off := fs.fat_start_byte + i * fs.fat_bytes_len + cluster * 4
    if off + 4 > fs.disk.len then (.error .OutOfBounds, fs)
    else
      Fat32.write_fat_go { fs with disk := writeBytes fs.disk off bytes }
        bytes cluster (i + 1) m

/-- `Fat32Mut::write_fat_entry_all`. -/
def Fat32.write_fat_entry_all (fs : Fat32) (cluster value : Nat) :
    Except FatError Unit × Fat32 :=
  let val := value &&& 0x0FFFFFFF
  Fat32.write_fat_go fs (u32LEBytes val) cluster 0 fs.num_fats

/-- The write loop of `free_chain`; a failing write aborts with the earlier
entries already freed. -/
def Fat32.free_go : Fat32 → List Nat → Except FatError Unit × Fat32
  | fs, [] => (.ok (), fs)
  | fs, cl :: rest =>
    match fs.write_fat_entry_all cl 0 with
    | (.error e, fs') => (.error e, fs')
    | (.ok _, fs') => Fat32.free_go fs' rest

/-- `Fat32Mut::free_chain`. -/
def Fat32.free_chain (fs : Fat32) (start_cluster : Nat) :
    Except FatError Unit × Fat32 :=
  if start_cluster < 2 then (.ok (), fs)
  else
    match fs.follow_chain start_cluster 4096 with
    | .error e => (.error e, fs)
    | .ok chain => Fat32.free_go fs chain

/-- The `for cl in 2..=max_cl` scan of `alloc_chain`; the fuel is the number
of remaining loop iterations, so the call uses `max_cl - 1` (the size of the
range `2..=max_cl`). -/
def Fat32.scan_free (fs : Fat32) (needed : Nat) :
    Nat → Nat → List Nat → Except FatError (List Nat)
  | _, 0, found => .ok found
  | cl, fuel + 1, found =>
    match fs.read_fat_entry cl with
    | .error e => .error e
    | .ok v =>
      if v = 0 then
        let found' := found ++ [cl]
        if found'.length = needed then .ok found'
        else fs.scan_free needed (cl + 1) fuel found'
      else fs.scan_free needed (cl + 1) fuel found

/-- The chaining loop of `alloc_chain`: `found[i] -> found[i+1]`, the last
entry gets `FAT32_EOC`. -/
def Fat32.chain_go : Fat32 → List Nat → Except FatError Unit × Fat32
  | fs, [] => (.ok (), fs)
  | fs, [last] => fs.write_fat_entry_all last FAT32_EOC
  | fs, c :: next :: rest =>
    match fs.write_fat_entry_all c next with
    | (.error e, fs') => (.error e, fs')
    | (.ok _, fs') => Fat32.chain_go fs' (next :: rest)

/-- `Fat32Mut::alloc_chain`. -/
def Fat32.alloc_chain (fs : Fat32) (needed : Nat) :
    Except FatError (List Nat) × Fat32 :=
  if needed = 0 then (.ok [], fs)
  else
    match fs.max_cluster_number with
    | .error e => (.error e, fs)
    | .ok max_cl =>
      match fs.scan_free needed 2 (max_cl - 1) [] with
      | .error e => (.error e, fs)
      | .ok found =>
        if found.length ≠ needed then (.error .NoSpaceLeft, fs)
        else
          match Fat32.chain_go fs found with
          | (.error e, fs') => (.error e, fs')
          | (.ok _, fs') => (.ok found, fs')

/-- The cluster loop of `write_chain_data`: copy the next slice of `content`
into the cluster, zero-fill the tail of the cluster, stop once the whole
content has been written. -/
def Fat32.wcd_go : Fat32 → List Nat → Nat → List Nat → Except FatError Unit × Fat32
  | fs, _, _, [] => (.ok (), fs)
  | fs, content, pos, cl :: rest =>
    match fs.cluster_to_offset cl with
    | .error e => (.error e, fs)
    | .ok off =>
      let cs := fs.cluster_size
      if off + cs > fs.disk.len then (.error .OutOfBounds, fs)
      else
        let endPos := min (pos + cs) content.length
        let chunk := (content.drop pos).take (endPos - pos)
        let d1 := writeBytes fs.disk off chunk
        let d2 := writeBytes d1 (off + chunk.length) (List.replicate (cs - chunk.length) 0)
        let fs' := { fs with disk := d2 }
        if endPos ≥ content.length then (.ok (), fs')
        else Fat32.wcd_go fs' content endPos rest

/-- `Fat32Mut::write_chain_data`. -/
def Fat32.write_chain_data (fs : Fat32) (chain content : List Nat) :
    Except FatError Unit × Fat32 :=
  Fat32.wcd_go fs content 0 chain

/-- Result of scanning one directory cluster for a name: a matching slot, a
`0x00` terminator (global stop), or nothing in this cluster. -/
inductive DirScanHit where
  | found (absOff : Nat) (e : Option DirEntry)
  | terminated
  | missing

/-- The 32-byte-stride scan of one cluster in
`find_dir_entry_offset_by_short_name`: skip `0xE5`, stop at `0x00`, match on
the raw 8.3 bytes. -/
def find_entry_chunks (name_raw ext_raw : List Nat) (off : Nat) :
    List (List Nat) → Nat → DirScanHit
  | [], _ => .missing
  | c :: rest, i =>
    if c.length < 32 then .missing
    else if c.getD 0 0 = 0x00 then .terminated
    else if c.getD 0 0 = 0xE5 then find_entry_chunks name_raw ext_raw off rest (i + 1)
    else if c.take 8 = name_raw ∧ (c.drop 8).take 3 = ext_raw then
      .found (off + i * 32) (DirEntry.parse c)
    else find_entry_chunks name_raw ext_raw off rest (i + 1)

/-- The cluster loop of `find_dir_entry_offset_by_short_name`. -/
def Fat32.find_entry_clusters (fs : Fat32) (name_raw ext_raw : List Nat) :
    List Nat → Except FatError (Option Nat × Option DirEntry)
  | [] => .ok (none, none)
  | cl :: rest =>
    match fs.cluster_to_offset cl with
    | .error e => .error e
    | .ok off =>
      if off + fs.cluster_size > fs.disk.len then .error .OutOfBounds
      else
        let data := readRange fs.disk off fs.cluster_size
        match find_entry_chunks name_raw ext_raw off (chunkList data) 0 with
        | .found o e => .ok (some o, e)
        | .terminated => .ok (none, none)
        | .missing => fs.find_entry_clusters name_raw ext_raw rest

/-- `Fat32Mut::find_dir_entry_offset_by_short_name`. -/
def Fat32.find_dir_entry_offset_by_short_name (fs : Fat32) (dir_cluster : Nat)
    (name_raw ext_raw : List Nat) : Except FatError (Option Nat × Option DirEntry) :=
  match fs.follow_chain dir_cluster 4096 with
  | .error e => .error e
  | .ok chain => fs.find_entry_clusters name_raw ext_raw chain

/-- The 32-byte-stride scan of one cluster in `find_free_dir_entry_slot`. -/
def find_free_chunks (off cluster_end : Nat) :
    List (List Nat) → Nat → Option (Nat × Bool × Nat)
  | [], _ => none
  | c :: rest, i =>
    if c.length < 32 then none
    else if c.getD 0 0 = 0x00 then some (off + i * 32, true, cluster_end)
    else if c.getD 0 0 = 0xE5 then some (off + i * 32, false, cluster_end)
    else find_free_chunks off cluster_end rest (i + 1)

/-- The cluster loop of `find_free_dir_entry_slot`. -/
def Fat32.find_free_clusters (fs : Fat32) : List Nat → Except FatError (Nat × Bool × Nat)
  | [] => .error .NoSpaceLeft
  | cl :: rest =>
    match fs.cluster_to_offset cl with
    | .error e => .error e
    | .ok off =>
      let cluster_end := off + fs.cluster_size
      if cluster_end > fs.disk.len then .error .OutOfBounds
      else
        let data := readRange fs.disk off fs.cluster_size
        match find_free_chunks off cluster_end (chunkList data) 0 with
        | some r => .ok r
        | none => fs.find_free_clusters rest

/-- `Fat32Mut::find_free_dir_entry_slot`. -/
def Fat32.find_free_dir_entry_slot (fs : Fat32) (dir_cluster : Nat) :
    Except FatError (Nat × Bool × Nat) :=
  match fs.follow_chain dir_cluster 4096 with
  | .error e => .error e
  | .ok chain => fs.find_free_clusters chain

/-- The 32-byte record assembled by `write_dir_entry_at_offset`: name, ext,
attribute `0x20`, zeroed bytes 12–19, cluster-high, zeroed bytes 22–25,
cluster-low, size (all little-endian). -/
def dir_entry_bytes (name_raw ext_raw : List Nat) (first_cluster size : Nat) : List Nat :=
  let hi := (first_cluster >>> 16) % 65536
  let lo := first_cluster &&& 0xFFFF
  name_raw ++ ext_raw ++ [0x20] ++ List.replicate 8 0 ++
    [hi % 256, hi / 256] ++ List.replicate 4 0 ++ [lo % 256, lo / 256] ++
    u32LEBytes size

/-- `Fat32Mut::write_dir_entry_at_offset`. -/
def Fat32.write_dir_entry_at_offset (fs : Fat32) (offset : Nat)
    (name_raw ext_raw : List Nat) (first_cluster size : Nat) :
    Except FatError Unit × Fat32 :=
  if offset + 32 > fs.disk.len then (.error .OutOfBounds, fs)
  else
    let bs := dir_entry_bytes name_raw ext_raw first_cluster size
    (.ok (), { fs with disk := writeBytes fs.disk offset bs })

/-- Last index of `c` in `cs` (Rust `str::rfind` on a char). -/
def rfindIdx (cs : List Char) (c : Char) : Option Nat :=
  match cs.reverse.findIdx? (· == c) with
  | none => none
  | some r => some (cs.length - 1 - r)

/-- `split_parent` from `lib.rs`. -/
def split_parent (path : String) : Except FatError (String × String) :=
  let p := trimEndSlashes path
  if p == "/" then .error .Other
  else
    match rfindIdx p.toList '/' with
    | none => .error .Other
    | some idx =>
      let parent := if idx = 0 then "/" else String.mk (p.toList.take idx)
      let name := String.mk (p.toList.drop (idx + 1))
      if name == "" then .error .Other
      else .ok (parent, name)

/-- `encode_short_name_8_3` from `lib.rs`.  The source checks each byte for
ASCII / `'/'` inside the fill loops; since all violations collapse to the
same `InvalidName`, checking all bytes up front yields the same result on
every input (for non-ASCII strings both the byte-length checks of the source
and the per-char ASCII check here produce `InvalidName`). -/
def encode_short_name_8_3 (name : String) : Except FatError (List Nat × List Nat) :=
  let cs := name.toList
  let base := match rfindIdx cs '.' with
    | some dot => cs.take dot
    | none => cs
  let ext := match rfindIdx cs '.' with
    | some dot => cs.drop (dot + 1)
    | none => []
  if base.isEmpty ∨ base.length > 8 ∨ ext.length > 3 then .error .InvalidName
  else if base.contains '.' ∨ ext.contains '.' then .error .InvalidName
  else if (base ++ ext).any (fun c => decide (127 < c.toNat) || c == '/') then
    .error .InvalidName
  else
    .ok (base.map (fun c => asciiUpperNat c.toNat) ++ List.replicate (8 - base.length) 32,
         ext.map (fun c => asciiUpperNat c.toNat) ++ List.replicate (3 - ext.length) 32)

/-- The tail of `write_file_by_path` after the release of the old chain:
cluster allocation, data write, and the directory-slot write. -/
def Fat32.write_file_finish (fs : Fat32) (parent_cluster : Nat)
    (name_raw ext_raw : List Nat) (existing_off : Option Nat)
    (content : List Nat) : Except FatError Unit × Fat32 :=
  let allocRes : Except FatError Nat × Fat32 :=
    if content.isEmpty then (.ok 0, fs)
    else
      let needed := div_ceil content.length fs.cluster_size
      match fs.alloc_chain needed with
      | (.error e, fs') => (.error e, fs')
      | (.ok chain, fs') =>
        match fs'.write_chain_data chain content with
        | (.error e, fs'') => (.error e, fs'')
        | (.ok _, fs'') => (.ok (chain.getD 0 0), fs'')
  match allocRes with
  | (.error e, fs') => (.error e, fs')
  | (.ok first_cluster, fs') =>
    let size := content.length % 2 ^ 32
    match existing_off with
    | some off => fs'.write_dir_entry_at_offset off name_raw ext_raw first_cluster size
    | none =>
      match fs'.find_free_dir_entry_slot parent_cluster with
      | .error e => (.error e, fs')
      | .ok (free_off, was_end_marker, entry_end_in_disk) =>
        match fs'.write_dir_entry_at_offset free_off name_raw ext_raw first_cluster size with
        | (.error e, fs'') => (.error e, fs'')
        | (.ok _, fs'') =>
          if was_end_marker ∧ free_off + 32 < entry_end_in_disk then
            (.ok (), { fs'' with disk := writeBytes fs''.disk (free_off + 32) [0] })
          else (.ok (), fs'')

/-- `Fat32Mut::write_file_by_path`. -/
def Fat32.write_file_by_path (fs : Fat32) (path : String) (content : List Nat) :
    Except FatError Unit × Fat32 :=
  if ¬ startsWithSlash path ∨ path == "/" then (.error .Other, fs)
  else
    match split_parent path with
    | .error e => (.error e, fs)
    | .ok (parent_path, file_name) =>
      match encode_short_name_8_3 file_name with
      | .error e => (.error e, fs)
      | .ok (name_raw, ext_raw) =>
        let parentRes : Except FatError Nat :=
          if parent_path == "/" then .ok fs.root_cluster
          else
            match fs.open_path parent_path with
            | .error e => .error e
            | .ok none => .error .PathNotFound
            | .ok (some entry) =>
              if ¬ entry.is_dir then .error .NotADirectory
              else .ok entry.first_cluster
        match parentRes with
        | .error e => (.error e, fs)
        | .ok parent_cluster =>
          match fs.find_dir_entry_offset_by_short_name parent_cluster name_raw ext_raw with
          | .error e => (.error e, fs)
          | .ok (existing_off, existing_entry) =>
            match existing_entry with
            | some e =>
              if e.is_dir then (.error .NotAFile, fs)
              else if 2 ≤ e.first_cluster then
                match fs.free_chain e.first_cluster with
                | (.error er, fs') => (.error er, fs')
                | (.ok _, fs') =>
                  fs'.write_file_finish parent_cluster name_raw ext_raw existing_off content
              else fs.write_file_finish parent_cluster name_raw ext_raw existing_off content
            | none =>
              fs.write_file_finish parent_cluster name_raw ext_raw existing_off content

/-! ## Concrete volumes

`testImageByte` is the 10-sector reference image of the spec's concrete
scenarios (and of the crate's `build_test_image` test fixture):
`bytes_per_sector = 512`, `sectors_per_cluster = 1`, `reserved_sectors = 1`,
`num_fats = 1`, `sectors_per_fat = 1`, `root_cluster = 2`; the root holds
`HELLO.TXT` (cluster 3, size 5, content "HELLO") and the directory `DIR`
(cluster 4); clusters 5–9 are free. -/

def testImageByte : Nat → Nat := fun i =>
  if i = 12 then 2
  else if i = 13 then 1
  else if i = 14 then 1
  else if i = 16 then 1
  else if i = 36 then 1
  else if i = 44 then 2
  else if 520 ≤ i ∧ i ≤ 522 then 0xFF
  else if i = 523 then 0x0F
  else if 524 ≤ i ∧ i ≤ 526 then 0xFF
  else if i = 527 then 0x0F
  else if 528 ≤ i ∧ i ≤ 530 then 0xFF
  else if i = 531 then 0x0F
  else if i = 1024 then 72
  else if i = 1025 then 69
  else if i = 1026 then 76
  else if i = 1027 then 76
  else if i = 1028 then 79
  else if 1029 ≤ i ∧ i ≤ 1031 then 32
  else if i = 1032 then 84
  else if i = 1033 then 88
  else if i = 1034 then 84
  else if i = 1035 then 0x20
  else if i = 1050 then 3
  else if i = 1052 then 5
  else if i = 1056 then 68
  else if i = 1057 then 73
  else if i = 1058 then 82
  else if 1059 ≤ i ∧ i ≤ 1066 then 32
  else if i = 1067 then 0x10
  else if i = 1082 then 4
  else if i = 1536 then 72
  else if i = 1537 then 69
  else if i = 1538 then 76
  else if i = 1539 then 76
  else if i = 1540 then 79
  else 0

/-- The reference disk image (10 sectors of 512 bytes). -/
def testDisk : Disk := ⟨5120, testImageByte⟩

/-- The parsed view of `testDisk`. -/
def testFs : Fat32 := ⟨testDisk, 512, 1, 1, 1, 1, 2⟩

/-- A volume identical in shape to `testDisk` except that the root holds two
short-name entries whose raw name bytes are *lower-case* (`new     txt` with
content "ZZ" in cluster 3, and `big     txt` with content "YY" in cluster 4,
both marked as files).  Such entries can never be produced by
`encode_short_name_8_3` (which upper-cases), but they are legal 32-byte
records on disk; they make the raw-byte slot lookup of the write path and
the case-insensitive normalized lookup of the read path disagree. -/
def aliasImageByte : Nat → Nat := fun i =>
  if i = 12 then 2
  else if i = 13 then 1
  else if i = 14 then 1
  else if i = 16 then 1
  else if i = 36 then 1
  else if i = 44 then 2
  else if 520 ≤ i ∧ i ≤ 522 then 0xFF
  else if i = 523 then 0x0F
  else if 524 ≤ i ∧ i ≤ 526 then 0xFF
  else if i = 527 then 0x0F
  else if 528 ≤ i ∧ i ≤ 530 then 0xFF
  else if i = 531 then 0x0F
  else if i = 1024 then 110
  else if i = 1025 then 101
  else if i = 1026 then 119
  else if 1027 ≤ i ∧ i ≤ 1031 then 32
  else if i = 1032 then 116
  else if i = 1033 then 120
  else if i = 1034 then 116
  else if i = 1035 then 0x20
  else if i = 1050 then 3
  else if i = 1052 then 2
  else if i = 1056 then 98
  else if i = 1057 then 105
  else if i = 1058 then 103
  else if 1059 ≤ i ∧ i ≤ 1063 then 32
  else if i = 1064 then 116
  else if i = 1065 then 120
  else if i = 1066 then 116
  else if i = 1067 then 0x20
  else if i = 1082 then 4
  else if i = 1084 then 2
  else if 1536 ≤ i ∧ i ≤ 1537 then 90
  else if 2048 ≤ i ∧ i ≤ 2049 then 89
  else 0

/-- The aliased disk image. -/
def aliasDisk : Disk := ⟨5120, aliasImageByte⟩

/-- The parsed view of `aliasDisk`. -/
def aliasFs : Fat32 := ⟨aliasDisk, 512, 1, 1, 1, 1, 2⟩

/-- A 2-sector volume whose FAT holds a circular chain: `FAT[2] = 3` and
`FAT[3] = 2`. -/
def cycImageByte : Nat → Nat := fun i =>
  if i = 12 then 2
  else if i = 13 then 1
  else if i = 14 then 1
  else if i = 16 then 1
  else if i = 36 then 1
  else if i = 44 then 2
  else if i = 520 then 3
  else if i = 524 then 2
  else 0

/-- The circular-FAT disk image. -/
def cycDisk : Disk := ⟨1024, cycImageByte⟩

/-- The parsed view of `cycDisk`. -/
def cycFs : Fat32 := ⟨cycDisk, 512, 1, 1, 1, 1, 2⟩

/-! ## Arithmetic facts about `align_up` -/

theorem mask_and_eq (m k : Nat) (hk : k ≤ 64) (hm : m < 2 ^ 64) :
    m &&& (2 ^ 64 - 2 ^ k) = m / 2 ^ k * 2 ^ k := by
  have hmask : (2 : Nat) ^ 64 - 2 ^ k = (2 ^ (64 - k) - 1) <<< k := by
    rw [Nat.shiftLeft_eq, Nat.sub_mul, one_mul, ← pow_add, Nat.sub_add_cancel hk]
  have hdiv : m / 2 ^ k * 2 ^ k = (m >>> k) <<< k := by
    rw [Nat.shiftRight_eq_div_pow, Nat.shiftLeft_eq]
  rw [hmask, hdiv]
  apply Nat.eq_of_testBit_eq
  intro i
  rw [Nat.testBit_land, Nat.testBit_shiftLeft, Nat.testBit_shiftLeft,
    Nat.testBit_two_pow_sub_one, Nat.testBit_shiftRight]
  by_cases hik : k ≤ i
  · simp only [hik, decide_True, Bool.true_and]
    by_cases hi64 : i < 64
    · have h1 : i - k < 64 - k := by omega
      have h2 : k + (i - k) = i := by omega
      simp [h1, h2]
    · have h1 : ¬ (i - k < 64 - k) := by omega
      have h2 : m.testBit (k + (i - k)) = false := by
        apply Nat.testBit_lt_two_pow
        calc m < 2 ^ 64 := hm
          _ ≤ 2 ^ (k + (i - k)) := Nat.pow_le_pow_right (by omega) (by omega)
      simp [h1, h2]
  · simp [hik]

theorem align_up_eq (x k : Nat) (hk : k ≤ 64) (hx : x + 2 ^ k ≤ 2 ^ 64) :
    align_up x (2 ^ k) = (x + 2 ^ k - 1) / 2 ^ k * 2 ^ k := by
  unfold align_up
  have hpos : 0 < (2 : Nat) ^ k := Nat.pos_pow_of_pos k (by norm_num)
  have h1 : (x + 2 ^ k - 1) % 2 ^ 64 = x + 2 ^ k - 1 := Nat.mod_eq_of_lt (by omega)
  rw [h1]
  exact mask_and_eq _ _ hk (by omega)

theorem align_up_ge (x k : Nat) (hk : k ≤ 64) (hx : x + 2 ^ k ≤ 2 ^ 64) :
    x ≤ align_up x (2 ^ k) := by
  rw [align_up_eq x k hk hx]
  have hpos : 0 < (2 : Nat) ^ k := Nat.pos_pow_of_pos k (by norm_num)
  have hd := Nat.div_add_mod (x + 2 ^ k - 1) (2 ^ k)
  have hm : (x + 2 ^ k - 1) % 2 ^ k < 2 ^ k := Nat.mod_lt _ hpos
  have hgoal : (x + 2 ^ k - 1) / 2 ^ k * 2 ^ k = 2 ^ k * ((x + 2 ^ k - 1) / 2 ^ k) :=
    Nat.mul_comm _ _
  omega

theorem align_up_le (x k : Nat) (hk : k ≤ 64) (hx : x + 2 ^ k ≤ 2 ^ 64) :
    align_up x (2 ^ k) ≤ x + 2 ^ k - 1 := by
  rw [align_up_eq x k hk hx]
  exact Nat.div_mul_le_self _ _

theorem align_up_mod (x k : Nat) (hk : k ≤ 64) :
    align_up x (2 ^ k) % 2 ^ k = 0 := by
  unfold align_up
  rw [mask_and_eq _ _ hk (Nat.mod_lt _ (Nat.pos_pow_of_pos 64 (by norm_num)))]
  exact Nat.mul_mod_left _ _

theorem align_up_dvd (x k : Nat) (hk : k ≤ 64) :
    2 ^ k ∣ align_up x (2 ^ k) :=
  Nat.dvd_of_mod_eq_zero (align_up_mod x k hk)

theorem align_up_least (x k m : Nat) (hk : k ≤ 64) (hx : x + 2 ^ k ≤ 2 ^ 64)
    (hdvd : 2 ^ k ∣ m) (hxm : x ≤ m) : align_up x (2 ^ k) ≤ m := by
  obtain ⟨t, rfl⟩ := hdvd
  rw [align_up_eq x k hk hx]
  have hpos : 0 < (2 : Nat) ^ k := Nat.pos_pow_of_pos k (by norm_num)
  have h1 : (x + 2 ^ k - 1) / 2 ^ k < t + 1 := by
    rw [Nat.div_lt_iff_lt_mul hpos]
    calc x + 2 ^ k - 1 < 2 ^ k * t + 2 ^ k := by omega
      _ = (t + 1) * 2 ^ k := by ring
  calc (x + 2 ^ k - 1) / 2 ^ k * 2 ^ k ≤ t * 2 ^ k :=
        Nat.mul_le_mul_right _ (by omega)
    _ = 2 ^ k * t := Nat.mul_comm _ _

theorem align_up_mono_coarse (x j k : Nat) (hjk : j ≤ k) (hk : k ≤ 64)
    (hx : x + 2 ^ k ≤ 2 ^ 64) :
    align_up x (2 ^ j) ≤ align_up x (2 ^ k) := by
  have hj64 : j ≤ 64 := le_trans hjk hk
  have hxj : x + 2 ^ j ≤ 2 ^ 64 := by
    have := Nat.pow_le_pow_right (show 1 ≤ 2 by norm_num) hjk
    omega
  apply align_up_least x j _ hj64 hxj
  · exact dvd_trans (pow_dvd_pow 2 hjk) (align_up_dvd x k hk)
  · exact align_up_ge x k hk hx

/-! ## `class_index_for` facts -/

theorem class_index_spec (s a idx : Nat)
    (h : SlabAllocator.class_index_for s a = some idx) :
    idx < 10 ∧ max s a ≤ SIZE_CLASSES.getD idx 0 ∧
      ∀ j, j < idx → SIZE_CLASSES.getD j 0 < max s a := by
  unfold SlabAllocator.class_index_for SIZE_CLASSES at h
  simp only [findClass] at h
  norm_num at h
  split_ifs at h <;> injection h with h2 <;> subst h2 <;>
    refine ⟨by norm_num, by simp [SIZE_CLASSES, List.getD]; omega, ?_⟩ <;>
    intro j hj <;> interval_cases j <;> simp [SIZE_CLASSES, List.getD] <;> omega

theorem class_index_none (s a : Nat)
    (h : SlabAllocator.class_index_for s a = none) : 4096 < max s a := by
  unfold SlabAllocator.class_index_for SIZE_CLASSES at h
  simp only [findClass] at h
  split_ifs at h <;> simp_all <;> omega

theorem size_class_eq_pow (idx : Nat) (h : idx < 10) :
    SIZE_CLASSES.getD idx 0 = 2 ^ (3 + idx) := by
  interval_cases idx <;> rfl

theorem getD_replicate' {α : Type} (n i : Nat) (x d : α) (h : i < n) :
    (List.replicate n x).getD i d = x := by
  induction n generalizing i with
  | zero => omega
  | succ m ih =>
    cases i with
    | zero => simp [List.replicate]
    | succ j => simpa [List.replicate] using ih j (by omega)

theorem getD_set_self' {α : Type} (l : List α) (i : Nat) (x d : α)
    (h : i < l.length) : (l.set i x).getD i d = x := by
  induction l generalizing i with
  | nil => simp at h
  | cons a t ih =>
    cases i with
    | zero => simp
    | succ j => simpa using ih j (by simpa using h)

theorem pushBlocks_head (bs : Nat) : ∀ (n off : Nat) (cache : List Nat), 0 < n →
    ∃ t, pushBlocks bs off n cache = (off + (n - 1) * bs) :: t := by
  intro n
  induction n with
  | zero => intro off cache h; omega
  | succ m ih =>
    intro off cache _
    cases m with
    | zero => exact ⟨cache, by simp [pushBlocks]⟩
    | succ m2 =>
      obtain ⟨t, ht⟩ := ih (off + bs) (off :: cache) (by omega)
      refine ⟨t, ?_⟩
      rw [pushBlocks, ht]
      congr 1
      simp only [Nat.succ_sub_one, Nat.add_sub_cancel]
      ring

theorem alloc_small_fresh (hs hsz s a idx : Nat)
    (hclass : SlabAllocator.class_index_for s a = some idx)
    (hs0 : 0 < hs)
    (hwrap : hs + 4096 ≤ 2 ^ 64)
    (hsz64 : hs + hsz < 2 ^ 64)
    (hcap : align_up hs 4096 + 4096 ≤ hs + hsz) :
    ((SlabAllocator.new.init hs hsz).alloc s a).1 =
      align_up hs 4096 + (4096 / SIZE_CLASSES.getD idx 0 - 1) * SIZE_CLASSES.getD idx 0 := by
  obtain ⟨hidx, hle, -⟩ := class_index_spec s a idx hclass
  have hbspow := size_class_eq_pow idx hidx
  have hbspos : 0 < SIZE_CLASSES.getD idx 0 := by rw [hbspow]; positivity
  have hbsle : SIZE_CLASSES.getD idx 0 ≤ 4096 := by
    rw [hbspow]
    calc (2 : Nat) ^ (3 + idx) ≤ 2 ^ 12 := Nat.pow_le_pow_right (by norm_num) (by omega)
      _ = 4096 := by norm_num
  have h4096 : (4096 : Nat) = 2 ^ 12 := by norm_num
  have hstart_ge : hs ≤ align_up hs 4096 := by
    rw [h4096]; exact align_up_ge hs 12 (by norm_num) (by omega)
  have hne : ¬ (align_up hs 4096 = 0) := by omega
  have hmod : (hs + hsz) % 2 ^ 64 = hs + hsz := Nat.mod_eq_of_lt hsz64
  have hst : SlabAllocator.new.init hs hsz =
      ⟨hs, hs + hsz, hs, List.replicate 10 [], true⟩ := by
    unfold SlabAllocator.new SlabAllocator.init
    simp only [hmod]
    rfl
  rw [hst]
  unfold SlabAllocator.alloc
  simp only [hclass]
  rw [getD_replicate' 10 idx ([] : List Nat) [] hidx]
  have hlt : align_up hs 4096 + 4096 < 2 ^ 64 := by omega
  have hngt : ¬ (align_up hs 4096 + 4096 > hs + hsz) := by omega
  have hnpos : 0 < 4096 / SIZE_CLASSES.getD idx 0 := Nat.div_pos hbsle hbspos
  obtain ⟨t, ht⟩ := pushBlocks_head (SIZE_CLASSES.getD idx 0)
    (4096 / SIZE_CLASSES.getD idx 0) (align_up hs 4096) [] hnpos
  simp only [SlabAllocator.refill_cache, SlabAllocator.alloc_from_bump,
    checked_add, CHUNK_SIZE, List.isEmpty_nil, if_pos hlt, if_neg hngt,
    if_neg hne, eq_self_iff_true, not_true, if_false, if_true]
  rw [getD_replicate' 10 idx ([] : List Nat) [] hidx]
  rw [ht]
  rw [getD_set_self' (List.replicate 10 []) idx _ [] (by simpa using hidx)]

theorem afb_fields (st : SlabAllocator) (size align : Nat) :
    (st.alloc_from_bump size align).2.heap_start = st.heap_start ∧
    (st.alloc_from_bump size align).2.heap_end = st.heap_end ∧
    (st.alloc_from_bump size align).2.initialized = st.initialized ∧
    (st.alloc_from_bump size align).2.caches = st.caches ∧
    ((st.alloc_from_bump size align).2.bump = st.bump ∨
     ((st.alloc_from_bump size align).2.bump = align_up st.bump align + size ∧
      (st.alloc_from_bump size align).2.bump ≤ st.heap_end)) := by
  unfold SlabAllocator.alloc_from_bump checked_add
  dsimp only
  by_cases h1 : align_up st.bump align + size < 2 ^ 64
  · rw [if_pos h1]
    dsimp only
    by_cases h2 : align_up st.bump align + size > st.heap_end
    · rw [if_pos h2]
      simp
    · rw [if_neg h2]
      by_cases h3 : align_up st.bump align = 0
      · rw [if_pos h3]
        refine ⟨rfl, rfl, rfl, rfl, Or.inr ⟨rfl, ?_⟩⟩
        show align_up st.bump align + size ≤ st.heap_end
        omega
      · rw [if_neg h3]
        refine ⟨rfl, rfl, rfl, rfl, Or.inr ⟨rfl, ?_⟩⟩
        show align_up st.bump align + size ≤ st.heap_end
        omega
  · rw [if_neg h1]
    simp

theorem refill_fields (st : SlabAllocator) (idx : Nat) :
    (st.refill_cache idx).2.heap_start = st.heap_start ∧
    (st.refill_cache idx).2.heap_end = st.heap_end ∧
    (st.refill_cache idx).2.initialized = st.initialized ∧
    (st.refill_cache idx).2.caches.length = st.caches.length ∧
    ((st.refill_cache idx).2.bump = st.bump ∨
     ((st.refill_cache idx).2.bump = align_up st.bump 4096 + 4096 ∧
      (st.refill_cache idx).2.bump ≤ st.heap_end)) := by
  have h := afb_fields st CHUNK_SIZE CHUNK_SIZE
  unfold SlabAllocator.refill_cache
  dsimp only
  split
  · next a' heq =>
    rw [heq] at h
    simp_all [CHUNK_SIZE]
  · next chunk a' heq =>
    rw [heq] at h
    simp_all [CHUNK_SIZE, List.length_set]

theorem alloc_fields (st : SlabAllocator) (s al : Nat) :
    (st.alloc s al).2.heap_start = st.heap_start ∧
    (st.alloc s al).2.heap_end = st.heap_end ∧
    (st.alloc s al).2.initialized = st.initialized ∧
    (st.alloc s al).2.caches.length = st.caches.length ∧
    ((st.alloc s al).2.bump = st.bump ∨
     ((st.alloc s al).2.bump = align_up st.bump al + s ∧
      (st.alloc s al).2.bump ≤ st.heap_end) ∨
     ((st.alloc s al).2.bump = align_up st.bump 4096 + 4096 ∧
      (st.alloc s al).2.bump ≤ st.heap_end)) := by
  unfold SlabAllocator.alloc
  split
  · simp
  · split
    · next idx heq =>
      dsimp only
      generalize hR : (if (st.caches.getD idx []).isEmpty = true then st.refill_cache idx
          else (true, st)) = R
      have hRf : R.2.heap_start = st.heap_start ∧ R.2.heap_end = st.heap_end ∧
          R.2.initialized = st.initialized ∧ R.2.caches.length = st.caches.length ∧
          (R.2.bump = st.bump ∨
           (R.2.bump = align_up st.bump 4096 + 4096 ∧ R.2.bump ≤ st.heap_end)) := by
        rw [← hR]
        split
        · exact refill_fields st idx
        · simp
      split
      · tauto
      · split <;> simp_all [List.length_set] <;> tauto
    · next heq =>
      have h := afb_fields st s al
      split <;> simp_all <;> tauto

theorem dealloc_fields (st : SlabAllocator) (p s al : Nat) :
    (st.dealloc p s al).heap_start = st.heap_start ∧
    (st.dealloc p s al).heap_end = st.heap_end ∧
    (st.dealloc p s al).initialized = st.initialized ∧
    (st.dealloc p s al).caches.length = st.caches.length ∧
    (st.dealloc p s al).bump = st.bump := by
  unfold SlabAllocator.dealloc
  split
  · simp
  · split <;> simp [List.length_set]

theorem dealloc_push (st : SlabAllocator) (p s a idx : Nat)
    (hp : p ≠ 0) (hinit : st.initialized = true)
    (hclass : SlabAllocator.class_index_for s a = some idx) :
    st.dealloc p s a =
      { st with caches := st.caches.set idx (p :: st.caches.getD idx []) } := by
  unfold SlabAllocator.dealloc
  rw [if_neg (by simp [hp, hinit])]
  simp only [hclass]

theorem alloc_pop (st : SlabAllocator) (s a idx hd : Nat) (tl : List Nat)
    (hinit : st.initialized = true)
    (hclass : SlabAllocator.class_index_for s a = some idx)
    (hcache : st.caches.getD idx [] = hd :: tl) :
    st.alloc s a = (hd, { st with caches := st.caches.set idx tl }) := by
  unfold SlabAllocator.alloc
  rw [if_neg (by simp [hinit])]
  simp only [hclass, hcache, List.isEmpty_cons, Bool.false_eq_true, if_false,
    eq_self_iff_true, not_true]

/-- C5 core: LIFO reuse per class, on any initialized allocator state. -/
theorem c5_core (st2 : SlabAllocator) (s a idx p q : Nat)
    (hinit : st2.initialized = true)
    (hlen : st2.caches.length = 10)
    (hclass : SlabAllocator.class_index_for s a = some idx)
    (hp : p ≠ 0) (hq : q ≠ 0) :
    (((st2.dealloc p s a).dealloc q s a).alloc s a).1 = q ∧
    ((((st2.dealloc p s a).dealloc q s a).alloc s a).2.alloc s a).1 = p := by
  obtain ⟨hidx, -, -⟩ := class_index_spec s a idx hclass
  have hlt : idx < st2.caches.length := by omega
  have h3 : st2.dealloc p s a =
      { st2 with caches := st2.caches.set idx (p :: st2.caches.getD idx []) } :=
    dealloc_push st2 p s a idx hp hinit hclass
  set st3 : SlabAllocator :=
    { st2 with caches := st2.caches.set idx (p :: st2.caches.getD idx []) } with hst3
  have h3c : st3.caches.getD idx [] = p :: st2.caches.getD idx [] :=
    getD_set_self' _ idx _ [] hlt
  have h4 : st3.dealloc q s a =
      { st3 with caches := st3.caches.set idx (q :: p :: st2.caches.getD idx []) } := by
    have h := dealloc_push st3 q s a idx hq hinit hclass
    rw [h3c] at h
    exact h
  set st4 : SlabAllocator :=
    { st3 with caches := st3.caches.set idx (q :: p :: st2.caches.getD idx []) } with hst4
  have hlt3 : idx < st3.caches.length := by simp [hst3, List.length_set]; omega
  have h4c : st4.caches.getD idx [] = q :: p :: st2.caches.getD idx [] :=
    getD_set_self' _ idx _ [] hlt3
  have h5 : st4.alloc s a =
      (q, { st4 with caches := st4.caches.set idx (p :: st2.caches.getD idx []) }) :=
    alloc_pop st4 s a idx q (p :: st2.caches.getD idx []) hinit hclass h4c
  set st5 : SlabAllocator :=
    { st4 with caches := st4.caches.set idx (p :: st2.caches.getD idx []) } with hst5
  have hlt4 : idx < st4.caches.length := by simp [hst4, hst3, List.length_set]; omega
  have h5c : st5.caches.getD idx [] = p :: st2.caches.getD idx [] :=
    getD_set_self' _ idx _ [] hlt4
  have h6 : st5.alloc s a =
      (p, { st5 with caches := st5.caches.set idx (st2.caches.getD idx []) }) :=
    alloc_pop st5 s a idx p (st2.caches.getD idx []) hinit hclass h5c
  rw [h3, h4, h5]
  exact ⟨rfl, by rw [h6]⟩

theorem step_inv (hs hsz : Nat) (st : SlabAllocator) (op : AllocOp)
    (hglob : hs + hsz + 4096 ≤ 2 ^ 64)
    (h1 : st.heap_start = hs) (h2 : st.heap_end = hs + hsz)
    (h3 : st.initialized = true) (h4 : hs ≤ st.bump) (h5 : st.bump ≤ hs + hsz)
    (hval : op.valid (hs + hsz)) :
    (stepOp st op).heap_start = hs ∧ (stepOp st op).heap_end = hs + hsz ∧
    (stepOp st op).initialized = true ∧ hs ≤ (stepOp st op).bump ∧
    (stepOp st op).bump ≤ hs + hsz ∧ st.bump ≤ (stepOp st op).bump := by
  cases op with
  | dealloc p s al =>
    have h := dealloc_fields st p s al
    simp only [stepOp]
    exact ⟨by rw [h.1, h1], by rw [h.2.1, h2], by rw [h.2.2.1, h3],
      by rw [h.2.2.2.2]; exact h4, by rw [h.2.2.2.2]; exact h5,
      by rw [h.2.2.2.2]⟩
  | alloc s al =>
    obtain ⟨⟨k, hk⟩, hwrap⟩ := hval
    have h := alloc_fields st s al
    have hk64 : k ≤ 64 := by
      by_contra hc
      have : (2 : Nat) ^ 65 ≤ 2 ^ k := Nat.pow_le_pow_right (by norm_num) (by omega)
      have : (2 : Nat) ^ 65 = 2 ^ 64 * 2 := by ring
      omega
    have hgeal : st.bump ≤ align_up st.bump al := by
      rw [hk]
      exact align_up_ge st.bump k hk64 (by omega)
    have hge12 : st.bump ≤ align_up st.bump 4096 := by
      have h4096 : (4096 : Nat) = 2 ^ 12 := by norm_num
      rw [h4096]
      exact align_up_ge st.bump 12 (by norm_num) (by omega)
    simp only [stepOp]
    obtain ⟨f1, f2, f3, -, fb⟩ := h
    refine ⟨by rw [f1, h1], by rw [f2, h2], by rw [f3, h3], ?_, ?_, ?_⟩ <;>
      rcases fb with hb | ⟨hb, hble⟩ | ⟨hb, hble⟩ <;> rw [hb] <;> omega

theorem run_inv (hs hsz : Nat) (hglob : hs + hsz + 4096 ≤ 2 ^ 64) :
    ∀ (ops : List AllocOp) (st : SlabAllocator),
    st.heap_start = hs → st.heap_end = hs + hsz → st.initialized = true →
    hs ≤ st.bump → st.bump ≤ hs + hsz →
    (∀ op ∈ ops, op.valid (hs + hsz)) →
    (runOps st ops).heap_start = hs ∧ (runOps st ops).heap_end = hs + hsz ∧
    (runOps st ops).initialized = true ∧ hs ≤ (runOps st ops).bump ∧
    (runOps st ops).bump ≤ hs + hsz := by
  intro ops
  induction ops with
  | nil => intro st e1 e2 e3 e4 e5 _; exact ⟨e1, e2, e3, e4, e5⟩
  | cons op rest ih =>
    intro st e1 e2 e3 e4 e5 hval
    have hs1 := step_inv hs hsz st op hglob e1 e2 e3 e4 e5
      (hval op (by simp))
    have : runOps st (op :: rest) = runOps (stepOp st op) rest := by
      simp [runOps, List.foldl_cons]
    rw [this]
    exact ih (stepOp st op) hs1.1 hs1.2.1 hs1.2.2.1 hs1.2.2.2.1 hs1.2.2.2.2.1
      (fun o ho => hval o (by simp [ho]))

theorem class_index_exists (s a : Nat) (h : max s a ≤ 4096) :
    ∃ idx, SlabAllocator.class_index_for s a = some idx := by
  unfold SlabAllocator.class_index_for SIZE_CLASSES
  simp only [findClass]
  split_ifs <;> first | exact ⟨_, rfl⟩ | omega

theorem alloc_large_fresh (hs hsz s a k : Nat)
    (hclass : SlabAllocator.class_index_for s a = none)
    (ha : a = 2 ^ k)
    (hs0 : 0 < hs)
    (hwrap : hs + a ≤ 2 ^ 64)
    (hsz64 : hs + hsz < 2 ^ 64)
    (hcap : align_up hs a + s ≤ hs + hsz) :
    ((SlabAllocator.new.init hs hsz).alloc s a).1 = align_up hs a := by
  have hk64 : k ≤ 64 := by
    by_contra hc
    have hge : (2 : Nat) ^ 65 ≤ 2 ^ k := Nat.pow_le_pow_right (by norm_num) (by omega)
    have he : (2 : Nat) ^ 65 = 2 ^ 64 * 2 := by ring
    omega
  have hge : hs ≤ align_up hs a := by
    rw [ha]; exact align_up_ge hs k hk64 (by omega)
  have hmod : (hs + hsz) % 2 ^ 64 = hs + hsz := Nat.mod_eq_of_lt hsz64
  have hst : SlabAllocator.new.init hs hsz =
      ⟨hs, hs + hsz, hs, List.replicate 10 [], true⟩ := by
    unfold SlabAllocator.new SlabAllocator.init
    simp only [hmod]
    rfl
  rw [hst]
  unfold SlabAllocator.alloc
  simp only [hclass]
  unfold SlabAllocator.alloc_from_bump checked_add
  dsimp only
  rw [if_pos (show align_up hs a + s < 2 ^ 64 by omega)]
  dsimp only
  rw [if_neg (show ¬ (align_up hs a + s > hs + hsz) by omega)]
  rw [if_neg (show ¬ (align_up hs a = 0) by omega)]
  simp

/-- C3 (counterexample): on the fresh state after `init(4096, 8)`, the
request `(s, a) = (8, 8)` has `a` a power of two and both `s` and `a` at
most the remaining capacity `heap_end - bump = 8`, yet `alloc` returns the
null address 0: the small path needs a whole 4096-aligned chunk to refill
the empty class cache, which does not fit. -/
theorem c3_claim_counterexample :
    is_power_of_two 8 = true ∧
    8 ≤ (SlabAllocator.new.init 4096 8).heap_end -
      (SlabAllocator.new.init 4096 8).bump ∧
    ((SlabAllocator.new.init 4096 8).alloc 8 8).1 = 0 := by decide

/-- C3 (amended): after `init(heap_start, heap_size)` with `heap_start > 0`,
for a power-of-two `a`, `alloc(s, a)` returns a non-null `a`-aligned address
provided the arena has room for the allocation's worst-case footprint: an
aligned 4096-byte chunk for the small path, or the aligned request itself
for the large path (both captured by
`align_up heap_start (max a 4096) + max s 4096 ≤ heap_start + heap_size`),
with the arithmetic staying inside the `usize` range. -/
theorem c3_alloc_nonnull_aligned (hs hsz s a k : Nat)
    (ha : a = 2 ^ k)
    (hs0 : 0 < hs)
    (hwrap : hs + max a 4096 ≤ 2 ^ 64)
    (hsz64 : hs + hsz < 2 ^ 64)
    (hcap : align_up hs (max a 4096) + max s 4096 ≤ hs + hsz) :
    ((SlabAllocator.new.init hs hsz).alloc s a).1 ≠ 0 ∧
    ((SlabAllocator.new.init hs hsz).alloc s a).1 % a = 0 := by
  have h4096 : (4096 : Nat) = 2 ^ 12 := by norm_num
  cases hclass : SlabAllocator.class_index_for s a with
  | some idx =>
    obtain ⟨hidx, hle, -⟩ := class_index_spec s a idx hclass
    have hbspow := size_class_eq_pow idx hidx
    have hbs4096 : SIZE_CLASSES.getD idx 0 ≤ 4096 := by
      rw [hbspow]
      calc (2 : Nat) ^ (3 + idx) ≤ 2 ^ 12 := Nat.pow_le_pow_right (by norm_num) (by omega)
        _ = 4096 := by norm_num
    have ha4096 : a ≤ 4096 := le_trans (le_trans (le_max_right s a) hle) hbs4096
    have hk12 : k ≤ 12 := by
      subst ha
      by_contra hc
      have h1 : (2 : Nat) ^ 13 ≤ 2 ^ k := Nat.pow_le_pow_right (by norm_num) (by omega)
      have h2 : (2 : Nat) ^ 13 = 8192 := by norm_num
      omega
    have hmax : max a 4096 = 4096 := by omega
    rw [hmax] at hwrap hcap
    have hcap' : align_up hs 4096 + 4096 ≤ hs + hsz := by
      have := le_max_right s 4096
      omega
    rw [alloc_small_fresh hs hsz s a idx hclass hs0 hwrap hsz64 hcap']
    have hstart_ge : hs ≤ align_up hs 4096 := by
      rw [h4096]; exact align_up_ge hs 12 (by norm_num) (by omega)
    constructor
    · omega
    · have hd1 : a ∣ align_up hs 4096 := by
        rw [ha, h4096]
        exact dvd_trans (pow_dvd_pow 2 hk12) (align_up_dvd hs 12 (by norm_num))
      have hak : (2 : Nat) ^ k ≤ 2 ^ (3 + idx) := by
        rw [← ha, ← hbspow]
        exact le_trans (le_max_right s a) hle
      have hd2 : a ∣ SIZE_CLASSES.getD idx 0 := by
        rw [ha, hbspow]
        exact pow_dvd_pow 2 ((Nat.pow_le_pow_iff_right (by norm_num)).mp hak)
      have hdvd : a ∣ align_up hs 4096 +
          (4096 / SIZE_CLASSES.getD idx 0 - 1) * SIZE_CLASSES.getD idx 0 :=
        dvd_add hd1 (Dvd.dvd.mul_left hd2 _)
      exact Nat.mod_eq_zero_of_dvd hdvd
  | none =>
    have h4 := class_index_none s a hclass
    have hk64 : k ≤ 64 := by
      subst ha
      by_contra hc
      have h1 : (2 : Nat) ^ 65 ≤ 2 ^ k := Nat.pow_le_pow_right (by norm_num) (by omega)
      have h2 : (2 : Nat) ^ 65 = 2 ^ 64 * 2 := by ring
      have h3 : (2 : Nat) ^ k ≤ max (2 ^ k) 4096 := le_max_left _ _
      omega
    have hwrapa : hs + a ≤ 2 ^ 64 := by
      have := le_max_left a 4096
      omega
    have hmono : align_up hs a ≤ align_up hs (max a 4096) := by
      rcases le_total a 4096 with hle | hle
      · have hmax : max a 4096 = 4096 := by omega
        have hk12 : k ≤ 12 := by
          by_contra hc
          have h1 : (2 : Nat) ^ 13 ≤ 2 ^ k := Nat.pow_le_pow_right (by norm_num) (by omega)
          have h2 : (2 : Nat) ^ 13 = 8192 := by norm_num
          omega
        rw [hmax, ha, h4096]
        exact align_up_mono_coarse hs k 12 hk12 (by norm_num) (by rw [← h4096]; omega)
      · have hmax : max a 4096 = a := by omega
        rw [hmax]
    have hcap' : align_up hs a + s ≤ hs + hsz := by
      have := le_max_left s 4096
      omega
    rw [alloc_large_fresh hs hsz s a k hclass ha hs0 hwrapa hsz64 hcap']
    have hage : hs ≤ align_up hs a := by
      rw [ha]; exact align_up_ge hs k hk64 (by omega)
    exact ⟨by omega, by rw [ha]; exact align_up_mod hs k hk64⟩

/-- C3 (witness): a concrete instance of the amended claim. -/
theorem c3_alloc_nonnull_aligned_witness :
    ((SlabAllocator.new.init 1048576 1048576).alloc 100 16).1 ≠ 0 ∧
    ((SlabAllocator.new.init 1048576 1048576).alloc 100 16).1 % 16 = 0 :=
  c3_alloc_nonnull_aligned 1048576 1048576 100 16 4 (by norm_num) (by norm_num)
    (by norm_num) (by norm_num) (by decide)

/-- C10: zero-size allocations succeed: with an initialized allocator whose
arena still has room for one aligned chunk, `alloc(0, a)` for a power-of-two
`a ≤ 4096` is bucketed into the first size class whose size is at least `a`
and returns a non-null, class-aligned block. -/
theorem c10_zero_size_alloc (hs hsz a k : Nat)
    (ha : a = 2 ^ k) (hale : a ≤ 4096)
    (hs0 : 0 < hs)
    (hwrap : hs + 4096 ≤ 2 ^ 64)
    (hsz64 : hs + hsz < 2 ^ 64)
    (hcap : align_up hs 4096 + 4096 ≤ hs + hsz) :
    ∃ idx, SlabAllocator.class_index_for 0 a = some idx ∧
      a ≤ SIZE_CLASSES.getD idx 0 ∧
      (∀ j, j < idx → SIZE_CLASSES.getD j 0 < a) ∧
      ((SlabAllocator.new.init hs hsz).alloc 0 a).1 ≠ 0 ∧
      ((SlabAllocator.new.init hs hsz).alloc 0 a).1 % SIZE_CLASSES.getD idx 0 = 0 := by
  obtain ⟨idx, hclass⟩ := class_index_exists 0 a (by simp [hale])
  obtain ⟨hidx, hle, hfirst⟩ := class_index_spec 0 a idx hclass
  have hmax0 : max 0 a = a := by omega
  rw [hmax0] at hle hfirst
  have hbspow := size_class_eq_pow idx hidx
  have h4096 : (4096 : Nat) = 2 ^ 12 := by norm_num
  refine ⟨idx, hclass, hle, hfirst, ?_, ?_⟩
  · rw [alloc_small_fresh hs hsz 0 a idx hclass hs0 hwrap hsz64 hcap]
    have hstart_ge : hs ≤ align_up hs 4096 := by
      rw [h4096]; exact align_up_ge hs 12 (by norm_num) (by omega)
    omega
  · rw [alloc_small_fresh hs hsz 0 a idx hclass hs0 hwrap hsz64 hcap]
    have hd1 : SIZE_CLASSES.getD idx 0 ∣ align_up hs 4096 := by
      rw [hbspow, h4096]
      exact dvd_trans (pow_dvd_pow 2 (by omega)) (align_up_dvd hs 12 (by norm_num))
    exact Nat.mod_eq_zero_of_dvd
      (dvd_add hd1 (Dvd.dvd.mul_left dvd_rfl _))

/-- C10 (witness): a concrete instance: a zero-size 16-aligned request is
served from class index 1 (size 16). -/
theorem c10_zero_size_alloc_witness :
    ((SlabAllocator.new.init 1048576 1048576).alloc 0 16).1 ≠ 0 ∧
    ((SlabAllocator.new.init 1048576 1048576).alloc 0 16).1 %
      SIZE_CLASSES.getD 1 0 = 0 := by
  obtain ⟨idx, hcl, -, -, hnz, hmod⟩ :=
    c10_zero_size_alloc 1048576 1048576 16 4 (by norm_num) (by norm_num)
      (by norm_num) (by norm_num) (by norm_num) (by decide)
  have hidx : idx = 1 := by
    have h1 : SlabAllocator.class_index_for 0 16 = some 1 := by decide
    rw [h1] at hcl
    exact (Option.some.inj hcl).symm
  subst hidx
  exact ⟨hnz, hmod⟩

/-- C5: LIFO reuse per size class: on any initialized allocator state, for a
layout `(s, a)` that falls in a small class, if `p = alloc(s,a)` and
`q = alloc(s,a)` both succeed, then after `free(p); free(q)` the next two
allocations return `q` then `p`. -/
theorem c5_lifo_reuse (st : SlabAllocator) (s a idx : Nat)
    (hinit : st.initialized = true)
    (hlen : st.caches.length = 10)
    (hclass : SlabAllocator.class_index_for s a = some idx)
    (hp : (st.alloc s a).1 ≠ 0)
    (hq : ((st.alloc s a).2.alloc s a).1 ≠ 0) :
    (((((st.alloc s a).2.alloc s a).2.dealloc (st.alloc s a).1 s a).dealloc
        ((st.alloc s a).2.alloc s a).1 s a).alloc s a).1 =
      ((st.alloc s a).2.alloc s a).1 ∧
    ((((((st.alloc s a).2.alloc s a).2.dealloc (st.alloc s a).1 s a).dealloc
        ((st.alloc s a).2.alloc s a).1 s a).alloc s a).2.alloc s a).1 =
      (st.alloc s a).1 := by
  have hf1 := alloc_fields st s a
  have hf2 := alloc_fields (st.alloc s a).2 s a
  apply c5_core ((st.alloc s a).2.alloc s a).2 s a idx (st.alloc s a).1
    ((st.alloc s a).2.alloc s a).1
  · rw [hf2.2.2.1, hf1.2.2.1, hinit]
  · rw [hf2.2.2.2.1, hf1.2.2.2.1, hlen]
  · exact hclass
  · exact hp
  · exact hq

/-- C5 (witness): on a freshly initialized allocator, two 8-byte
allocations, two frees, and two more allocations exhibit the LIFO order. -/
theorem c5_lifo_reuse_witness :
    let st := SlabAllocator.new.init 4096 65536
    (((((st.alloc 8 8).2.alloc 8 8).2.dealloc (st.alloc 8 8).1 8 8).dealloc
        ((st.alloc 8 8).2.alloc 8 8).1 8 8).alloc 8 8).1 =
      ((st.alloc 8 8).2.alloc 8 8).1 ∧
    ((((((st.alloc 8 8).2.alloc 8 8).2.dealloc (st.alloc 8 8).1 8 8).dealloc
        ((st.alloc 8 8).2.alloc 8 8).1 8 8).alloc 8 8).2.alloc 8 8).1 =
      (st.alloc 8 8).1 :=
  c5_lifo_reuse (SlabAllocator.new.init 4096 65536) 8 8 0 (by decide) (by decide)
    (by decide) (by decide) (by decide)

/-- C7 (counterexample): with `heap_start + heap_size` still in the `usize`
range (`= 2^64 - 1`), the wrapping computation `(x + align - 1)` inside
`align_up` lets a refill triggered at `bump = 2^64 - 1` move the bump
cursor *backwards* to 4096 — below `heap_start = 2^20`: after two large
allocations fill the arena, a small allocation's chunk refill wraps. -/
theorem c7_claim_counterexample :
    2 ^ 20 + (2 ^ 64 - 1 - 2 ^ 20) ≤ 2 ^ 64 - 1 ∧
    (runOps (SlabAllocator.new.init (2 ^ 20) (2 ^ 64 - 1 - 2 ^ 20))
      [.alloc (2 ^ 63 - 1) 1, .alloc (2 ^ 63 - 2 ^ 20) 1]).bump = 2 ^ 64 - 1 ∧
    (runOps (SlabAllocator.new.init (2 ^ 20) (2 ^ 64 - 1 - 2 ^ 20))
      [.alloc (2 ^ 63 - 1) 1, .alloc (2 ^ 63 - 2 ^ 20) 1, .alloc 8 8]).bump = 4096 ∧
    (runOps (SlabAllocator.new.init (2 ^ 20) (2 ^ 64 - 1 - 2 ^ 20))
      [.alloc (2 ^ 63 - 1) 1, .alloc (2 ^ 63 - 2 ^ 20) 1, .alloc 8 8]).bump <
      (SlabAllocator.new.init (2 ^ 20) (2 ^ 64 - 1 - 2 ^ 20)).heap_start := by
  refine ⟨by norm_num, by decide, by decide, by decide⟩

/-- C7 (amended): provided no `align_up` computation can wrap around the
`usize` range (`heap_start + heap_size + 4096 ≤ 2^64`, and every alloc's
power-of-two align satisfies `heap_end + align ≤ 2^64`), for every finite
sequence of alloc and dealloc calls the bump cursor stays within
`[heap_start, heap_end]`, every next valid call can only move it forward,
and `dealloc` never moves it. -/
theorem c7_bump_invariant (hs hsz : Nat) (ops : List AllocOp)
    (hglob : hs + hsz + 4096 ≤ 2 ^ 64)
    (hval : ∀ op ∈ ops, op.valid (hs + hsz)) :
    (hs ≤ (runOps (SlabAllocator.new.init hs hsz) ops).bump ∧
     (runOps (SlabAllocator.new.init hs hsz) ops).bump ≤ hs + hsz) ∧
    (∀ op, op.valid (hs + hsz) →
      (runOps (SlabAllocator.new.init hs hsz) ops).bump ≤
        (stepOp (runOps (SlabAllocator.new.init hs hsz) ops) op).bump) ∧
    (∀ p s al, ((runOps (SlabAllocator.new.init hs hsz) ops).dealloc p s al).bump =
      (runOps (SlabAllocator.new.init hs hsz) ops).bump) := by
  have hmod : (hs + hsz) % 2 ^ 64 = hs + hsz := Nat.mod_eq_of_lt (by omega)
  have hinv := run_inv hs hsz hglob ops (SlabAllocator.new.init hs hsz)
    (by simp [SlabAllocator.new, SlabAllocator.init]; all_goals omega)
    (by simp [SlabAllocator.new, SlabAllocator.init, hmod]; all_goals omega)
    (by simp [SlabAllocator.new, SlabAllocator.init]; all_goals omega)
    (by simp [SlabAllocator.new, SlabAllocator.init]; all_goals omega)
    (by simp [SlabAllocator.new, SlabAllocator.init]; all_goals omega)
    hval
  obtain ⟨e1, e2, e3, e4, e5⟩ := hinv
  refine ⟨⟨e4, e5⟩, ?_, ?_⟩
  · intro op hvalop
    exact (step_inv hs hsz _ op hglob e1 e2 e3 e4 e5 hvalop).2.2.2.2.2
  · intro p s al
    exact (dealloc_fields _ p s al).2.2.2.2

/-- C7 (witness): on a concrete valid trace the final bump cursor lies in
the arena. -/
theorem c7_bump_invariant_witness :
    4096 ≤ (runOps (SlabAllocator.new.init 4096 65536)
        [.alloc 8 8, .dealloc 8184 8 8, .alloc 5000 16]).bump ∧
    (runOps (SlabAllocator.new.init 4096 65536)
        [.alloc 8 8, .dealloc 8184 8 8, .alloc 5000 16]).bump ≤ 4096 + 65536 :=
  (c7_bump_invariant 4096 65536 [.alloc 8 8, .dealloc 8184 8 8, .alloc 5000 16]
    (by norm_num)
    (by
      intro op hop
      simp only [List.mem_cons, List.mem_singleton] at hop
      rcases hop with rfl | rfl | rfl | h
      · exact ⟨⟨3, by norm_num⟩, by norm_num⟩
      · trivial
      · exact ⟨⟨4, by norm_num⟩, by norm_num⟩
      · cases h)).1

/-! ## FAT32 claims: BPB parser -/

/-- C8: view construction rejects a buffer shorter than 512 bytes with
`BufferTooSmall`; otherwise it rejects with `NotFat32` exactly when one of
`bytes_per_sector`, `sectors_per_cluster`, `num_fats`, `sectors_per_fat`
read at their fixed offsets is zero; otherwise it succeeds.  `Fat32::new`
fails exactly as `parse_bpb` does. -/
theorem c8_parse_bpb_spec (d : Disk) :
    (parse_bpb d = .error .BufferTooSmall ↔ d.len < 512) ∧
    (512 ≤ d.len →
      (parse_bpb d = .error .NotFat32 ↔
        (d.byteAt 11 + 256 * d.byteAt 12 = 0 ∨ d.byteAt 13 = 0 ∨
          d.byteAt 16 = 0 ∨
          d.byteAt 36 + 256 * d.byteAt 37 + 65536 * d.byteAt 38 +
            16777216 * d.byteAt 39 = 0))) ∧
    (512 ≤ d.len →
      ¬ (d.byteAt 11 + 256 * d.byteAt 12 = 0 ∨ d.byteAt 13 = 0 ∨
          d.byteAt 16 = 0 ∨
          d.byteAt 36 + 256 * d.byteAt 37 + 65536 * d.byteAt 38 +
            16777216 * d.byteAt 39 = 0) →
      ∃ p, parse_bpb d = .ok p) ∧
    (∀ e, Fat32.new d = .error e ↔ parse_bpb d = .error e) := by
  refine ⟨?_, ?_, ?_, ?_⟩
  · constructor
    · intro h
      unfold parse_bpb at h
      dsimp only at h
      split_ifs at h with h1 h2 h3 <;> first | exact h1 | simp at h
    · intro h
      unfold parse_bpb
      rw [if_pos h]
  · intro hlen
    constructor
    · intro h
      unfold parse_bpb at h
      rw [if_neg (by omega)] at h
      dsimp only at h
      split_ifs at h with h1 h2
      all_goals first | tauto | simp at h
    · intro hz
      unfold parse_bpb
      rw [if_neg (by omega)]
      dsimp only
      by_cases hA : d.byteAt 11 + 256 * d.byteAt 12 = 0 ∨ d.byteAt 13 = 0 ∨
          d.byteAt 16 = 0
      · rw [if_pos hA]
      · rw [if_neg hA]
        have hspf : d.byteAt 36 + 256 * d.byteAt 37 + 65536 * d.byteAt 38 +
            16777216 * d.byteAt 39 = 0 := by tauto
        rw [if_pos hspf]
  · intro hlen hnz
    unfold parse_bpb
    rw [if_neg (by omega)]
    dsimp only
    rw [if_neg (by tauto), if_neg (by tauto)]
    exact ⟨_, rfl⟩
  · intro e
    unfold Fat32.new
    cases hp : parse_bpb d <;> simp [hp]

/-- C8 (witness): concrete instances of the buffer-length case. -/
theorem c8_parse_bpb_spec_witness :
    (parse_bpb cycDisk = .error .BufferTooSmall ↔ cycDisk.len < 512) ∧
    (parse_bpb (Disk.mk 16 testImageByte) = .error .BufferTooSmall ↔
      (Disk.mk 16 testImageByte).len < 512) :=
  ⟨(c8_parse_bpb_spec cycDisk).1, (c8_parse_bpb_spec (Disk.mk 16 testImageByte)).1⟩

/-! ## FAT32 claims: chain traversal -/

theorem follow_go_length (fs : Fat32) : ∀ (fuel cur : Nat) (acc c : List Nat),
    fs.follow_go cur acc fuel = .ok c → c.length ≤ acc.length + fuel := by
  intro fuel
  induction fuel with
  | zero =>
    intro cur acc c h
    unfold Fat32.follow_go at h
    injection h with h
    subst h
    simp
  | succ n ih =>
    intro cur acc c h
    unfold Fat32.follow_go at h
    cases hr : fs.read_fat_entry cur with
    | error e => rw [hr] at h; cases h
    | ok v =>
      rw [hr] at h
      dsimp only at h
      by_cases h1 : 0x0FFFFFF8 ≤ v
      · rw [if_pos h1] at h
        injection h with h
        subst h
        simp only [List.length_reverse, List.length_cons]
        omega
      · rw [if_neg h1] at h
        by_cases h2 : v < 2
        · rw [if_pos h2] at h
          cases h
        · rw [if_neg h2] at h
          have := ih v (cur :: acc) c h
          simp only [List.length_cons] at this
          omega

theorem cyc_follow_ok : ∀ (fuel : Nat) (cur : Nat) (acc : List Nat),
    cur = 2 ∨ cur = 3 → ∃ c, cycFs.follow_go cur acc fuel = .ok c := by
  intro fuel
  induction fuel with
  | zero => intro cur acc _; exact ⟨acc.reverse, rfl⟩
  | succ n ih =>
    intro cur acc hcur
    rcases hcur with rfl | rfl
    · have hr : cycFs.read_fat_entry 2 = .ok 3 := by decide
      unfold Fat32.follow_go
      rw [hr]
      dsimp only
      rw [if_neg (by norm_num), if_neg (by norm_num)]
      exact ih 3 (2 :: acc) (Or.inr rfl)
    · have hr : cycFs.read_fat_entry 3 = .ok 2 := by decide
      unfold Fat32.follow_go
      rw [hr]
      dsimp only
      rw [if_neg (by norm_num), if_neg (by norm_num)]
      exact ih 2 (3 :: acc) (Or.inl rfl)

/-- C4 (counterexample): on a volume whose FAT holds the 2-cycle
`FAT[2] = 3`, `FAT[3] = 2`, the chain from cluster 2 exceeds every bound,
yet `follow_chain` (the traversal used by `list_dir_cluster` and
`read_file`) returns `Ok` with the chain truncated at 4096 clusters — it
does not return an error. -/
theorem c4_claim_counterexample :
    cycFs.read_fat_entry 2 = .ok 3 ∧ cycFs.read_fat_entry 3 = .ok 2 ∧
    (cycFs.follow_chain 2 4096).isOk = true := by
  refine ⟨by decide, by decide, ?_⟩
  obtain ⟨c, hc⟩ := cyc_follow_ok 4096 2 [] (Or.inl rfl)
  unfold Fat32.follow_chain
  rw [if_neg (by norm_num), hc]
  rfl


/-! ## FAT32 claims: `read_file` -/

theorem readRange_length (d : Disk) (off n : Nat) : (readRange d off n).length = n := by
  simp [readRange]

theorem read_cluster_length (fs : Fat32) (cl : Nat) (data : List Nat)
    (h : fs.read_cluster cl = .ok data) : data.length = fs.cluster_size := by
  unfold Fat32.read_cluster at h
  cases ho : fs.cluster_to_offset cl with
  | error e => rw [ho] at h; cases h
  | ok off =>
    rw [ho] at h
    dsimp only at h
    split_ifs at h with h1
    rw [Except.ok.injEq] at h
    subst h
    exact readRange_length _ _ _

theorem read_go_length (fs : Fat32) : ∀ (chain : List Nat) (remaining : Nat)
    (acc out : List Nat), fs.read_file_go remaining acc chain = .ok out →
    out.length ≤ acc.length + remaining := by
  intro chain
  induction chain with
  | nil =>
    intro remaining acc out h
    unfold Fat32.read_file_go at h
    rw [Except.ok.injEq] at h
    subst h
    omega
  | cons cl rest ih =>
    intro remaining acc out h
    unfold Fat32.read_file_go at h
    cases hr : fs.read_cluster cl with
    | error e => rw [hr] at h; cases h
    | ok data =>
      rw [hr] at h
      dsimp only at h
      by_cases h0 : remaining - min remaining fs.cluster_size = 0
      · rw [if_pos h0] at h
        rw [Except.ok.injEq] at h
        subst h
        have htk : (data.take (min remaining fs.cluster_size)).length ≤ remaining := by
          simp
          all_goals omega
        simp only [List.length_append]
        omega
      · rw [if_neg h0] at h
        have hlen := ih _ _ _ h
        have htk : (data.take (min remaining fs.cluster_size)).length ≤
            min remaining fs.cluster_size := by simp
        simp only [List.length_append] at hlen
        omega

theorem read_go_trunc (fs : Fat32) : ∀ (chain : List Nat) (remaining : Nat)
    (acc : List Nat),
    (∀ cl ∈ chain, ∃ data, fs.read_cluster cl = .ok data) →
    chain.length * fs.cluster_size < remaining →
    ∃ out, fs.read_file_go remaining acc chain = .ok out ∧
      out.length = acc.length + chain.length * fs.cluster_size := by
  intro chain
  induction chain with
  | nil =>
    intro remaining acc _ _
    exact ⟨acc, rfl, by simp⟩
  | cons cl rest ih =>
    intro remaining acc hread hlt
    obtain ⟨data, hd⟩ := hread cl (by simp)
    have hdlen : data.length = fs.cluster_size := read_cluster_length fs cl data hd
    have hcs_le : fs.cluster_size ≤ remaining := by
      simp only [List.length_cons, Nat.succ_mul] at hlt
      omega
    have htk : min remaining fs.cluster_size = fs.cluster_size := by omega
    unfold Fat32.read_file_go
    rw [hd]
    dsimp only
    rw [htk]
    have hrem0 : ¬ (remaining - fs.cluster_size = 0) := by
      simp only [List.length_cons, Nat.succ_mul] at hlt
      by_cases hcs : fs.cluster_size = 0
      · omega
      · omega
    rw [if_neg hrem0]
    have hlt' : rest.length * fs.cluster_size < remaining - fs.cluster_size := by
      simp only [List.length_cons, Nat.succ_mul] at hlt
      omega
    obtain ⟨out, hout, holen⟩ := ih (remaining - fs.cluster_size)
      (acc ++ data.take fs.cluster_size) (fun c hc => hread c (by simp [hc])) hlt'
    refine ⟨out, hout, ?_⟩
    rw [holen]
    simp only [List.length_append, List.length_take, hdlen, List.length_cons,
      Nat.succ_mul]
    omega

/-- C9: `read_file` never returns more than `entry.size` bytes; and when the
cluster chain ends before `entry.size` bytes have been gathered, it still
returns `Ok` with just the available `chain.length * cluster_size` bytes
(silent truncation), not an error. -/
theorem c9_read_file_truncation (fs : Fat32) (entry : DirEntry) :
    (∀ bs, fs.read_file entry = .ok bs → bs.length ≤ entry.size) ∧
    (∀ chain, entry.is_file = true → 0 < entry.size → 2 ≤ entry.first_cluster →
      fs.follow_chain entry.first_cluster 4096 = .ok chain →
      (∀ cl ∈ chain, ∃ data, fs.read_cluster cl = .ok data) →
      chain.length * fs.cluster_size < entry.size →
      (fs.read_file entry).isOk = true ∧
      (∀ bs, fs.read_file entry = .ok bs →
        bs.length = chain.length * fs.cluster_size)) := by
  constructor
  · intro bs h
    unfold Fat32.read_file at h
    split_ifs at h with h1 h2 h3
    · rw [Except.ok.injEq] at h
      subst h
      simp
    · cases hf : fs.follow_chain entry.first_cluster 4096 with
      | error e => rw [hf] at h; cases h
      | ok chain =>
        rw [hf] at h
        dsimp only at h
        have := read_go_length fs chain entry.size [] bs h
        simpa using this
  · intro chain hfile hsz hfc hfollow hread hlt
    obtain ⟨out, hout, holen⟩ := read_go_trunc fs chain entry.size [] hread hlt
    have hrf : fs.read_file entry = .ok out := by
      unfold Fat32.read_file
      rw [if_neg (by simp [hfile]), if_neg (by omega), if_neg (by omega), hfollow]
      exact hout
    constructor
    · rw [hrf]; rfl
    · intro bs hbs
      rw [hrf] at hbs
      rw [Except.ok.injEq] at hbs
      subst hbs
      simpa using holen

/-- C9 (witness): on the reference volume, an entry claiming size 600 but
owning the single-cluster chain `[3]` reads back `Ok` with 512 bytes. -/
theorem c9_read_file_truncation_witness :
    (testFs.read_file ⟨"HELLO.TXT", ⟨false, false, false, false, false, true⟩,
      3, 600⟩).isOk = true :=
  ((c9_read_file_truncation testFs
      ⟨"HELLO.TXT", ⟨false, false, false, false, false, true⟩, 3, 600⟩).2
    [3] (by decide) (by norm_num) (by norm_num) (by decide)
    (fun cl hcl => by
      simp only [List.mem_singleton] at hcl
      subst hcl
      exact ⟨readRange testDisk 1536 512, by decide⟩)
    (by decide)).1

/-! ## FAT32 claims: write path on concrete volumes -/

/-- C1 (counterexample): on `aliasFs` the path `/NEW.TXT` is a valid 8.3
path whose parent (the root) exists, and the write succeeds, but reading the
path back returns the content of the pre-existing lower-case-raw `new.txt`
entry ("ZZ") instead of the written bytes: the write path matches slots by
raw 8.3 bytes while the read path matches names case-insensitively. -/
theorem c1_claim_counterexample :
    (encode_short_name_8_3 "NEW.TXT").isOk = true ∧
    (aliasFs.write_file_by_path "/NEW.TXT" [65, 66, 67]).1 = .ok () ∧
    (aliasFs.write_file_by_path "/NEW.TXT" [65, 66, 67]).2.read_file_by_path
      "/NEW.TXT" = .ok (some [90, 90]) ∧
    ([90, 90] : List Nat) ≠ [65, 66, 67] := by
  refine ⟨by decide, by decide, by decide, by decide⟩

/-- C6 (counterexample): on `aliasFs`, both `write(/BIG.TXT, 600 × 'A')`
and `write(/BIG.TXT, "")` succeed, yet reading `/BIG.TXT` afterwards
returns the bytes "YY" of the pre-existing lower-case-raw `big.txt` entry,
not the empty buffer. -/
theorem c6_claim_counterexample :
    (aliasFs.write_file_by_path "/BIG.TXT" (List.replicate 600 65)).1 = .ok () ∧
    ((aliasFs.write_file_by_path "/BIG.TXT"
        (List.replicate 600 65)).2.write_file_by_path "/BIG.TXT" []).1 = .ok () ∧
    ((aliasFs.write_file_by_path "/BIG.TXT"
        (List.replicate 600 65)).2.write_file_by_path "/BIG.TXT" []).2.read_file_by_path
      "/BIG.TXT" = .ok (some [89, 89]) ∧
    some [89, 89] ≠ some ([] : List Nat) := by
  refine ⟨by decide, by decide, by decide, by decide⟩

/-- C6 (amended): overwrite shrink on the reference volume: after
`write(/BIG.TXT, 600 × 'A')` (which allocates the chain `5 → 6 → EOC`)
followed by `write(/BIG.TXT, "")`, reading the file returns the empty
buffer, the FAT entries of both old-chain clusters read as 0 (free), and
the directory entry records `size = 0` and `first_cluster = 0`. -/
theorem c6_overwrite_shrink :
    (testFs.write_file_by_path "/BIG.TXT" (List.replicate 600 65)).1 = .ok () ∧
    (testFs.write_file_by_path "/BIG.TXT"
      (List.replicate 600 65)).2.read_fat_entry 5 = .ok 6 ∧
    (testFs.write_file_by_path "/BIG.TXT"
      (List.replicate 600 65)).2.read_fat_entry 6 = .ok 0x0FFFFFFF ∧
    ((testFs.write_file_by_path "/BIG.TXT"
        (List.replicate 600 65)).2.write_file_by_path "/BIG.TXT" []).1 = .ok () ∧
    ((testFs.write_file_by_path "/BIG.TXT"
        (List.replicate 600 65)).2.write_file_by_path "/BIG.TXT" []).2.read_file_by_path
      "/BIG.TXT" = .ok (some []) ∧
    ((testFs.write_file_by_path "/BIG.TXT"
        (List.replicate 600 65)).2.write_file_by_path "/BIG.TXT" []).2.read_fat_entry
      5 = .ok 0 ∧
    ((testFs.write_file_by_path "/BIG.TXT"
        (List.replicate 600 65)).2.write_file_by_path "/BIG.TXT" []).2.read_fat_entry
      6 = .ok 0 ∧
    ((testFs.write_file_by_path "/BIG.TXT"
        (List.replicate 600 65)).2.write_file_by_path "/BIG.TXT" []).2.open_path
      "/BIG.TXT" = .ok (some ⟨"BIG.TXT",
        ⟨false, false, false, false, false, true⟩, 0, 0⟩) := by
  refine ⟨by decide, by decide, by decide, by decide, by decide, by decide,
    by decide, by decide⟩

/-! ## Disk-level read/write lemmas -/

theorem writeBytes_byteAt_out (d : Disk) (off : Nat) (bs : List Nat) (i : Nat)
    (h : i < off ∨ off + bs.length ≤ i) :
    (writeBytes d off bs).byteAt i = d.byteAt i := by
  unfold writeBytes
  dsimp only
  rw [if_neg (by omega)]

theorem writeBytes_len (d : Disk) (off : Nat) (bs : List Nat) :
    (writeBytes d off bs).len = d.len := rfl

theorem readRange_out (d : Disk) (off : Nat) (bs : List Nat) (a n : Nat)
    (h : a + n ≤ off ∨ off + bs.length ≤ a) :
    readRange (writeBytes d off bs) a n = readRange d a n := by
  unfold readRange
  apply List.map_congr_left
  intro i hi
  rw [List.mem_range] at hi
  exact writeBytes_byteAt_out d off bs (a + i) (by omega)

theorem readRange_exact (d : Disk) (off : Nat) (bs : List Nat) (n : Nat)
    (h : bs.length = n) :
    readRange (writeBytes d off bs) off n = bs := by
  subst h
  unfold readRange writeBytes
  dsimp only
  apply List.ext_getElem
  · simp
  · intro i h1 h2
    simp only [List.getElem_map, List.getElem_range, List.length_map,
      List.length_range] at *
    rw [if_pos (by omega), show off + i - off = i by omega]
    exact List.getD_eq_getElem bs 0 h2

theorem readRange_split (d : Disk) (off a b : Nat) :
    readRange d off (a + b) = readRange d off a ++ readRange d (off + a) b := by
  unfold readRange
  rw [List.range_add, List.map_append, List.map_map]
  congr 1
  apply List.map_congr_left
  intro i _
  show d.byteAt (off + (a + i)) = d.byteAt (off + a + i)
  rw [Nat.add_assoc]

theorem writeBytes_nil (d : Disk) (off : Nat) : writeBytes d off [] = d := by
  unfold writeBytes
  cases d with
  | mk len byteAt =>
    congr 1
    funext i
    rw [if_neg (by simp)]

/-! ## `chunkList` structure lemmas -/

theorem chunkListFuel_irrel (f : Nat) : ∀ (g : Nat) (l : List Nat),
    l.length ≤ f → l.length ≤ g → chunkListFuel f l = chunkListFuel g l := by
  induction f with
  | zero =>
    intro g l h1 _
    cases l with
    | nil => cases g <;> rfl
    | cons a t => simp at h1
  | succ n ih =>
    intro g l h1 h2
    cases l with
    | nil => cases g <;> rfl
    | cons a t =>
      cases g with
      | zero => simp at h2
      | succ m =>
        show ((a :: t).take 32) :: chunkListFuel n ((a :: t).drop 32) =
          ((a :: t).take 32) :: chunkListFuel m ((a :: t).drop 32)
        congr 1
        apply ih
        · simp only [List.length_drop, List.length_cons] at *
          omega
        · simp only [List.length_drop, List.length_cons] at *
          omega

theorem chunkList_cons32 (c l : List Nat) (h : c.length = 32) :
    chunkList (c ++ l) = c :: chunkList l := by
  unfold chunkList
  cases c with
  | nil => simp at h
  | cons a t =>
    have hlen : ((a :: t) ++ l).length = l.length + 32 := by
      simp only [List.length_append, List.length_cons] at *
      omega
    rw [hlen]
    show ((a :: t ++ l).take 32) :: chunkListFuel (l.length + 31) ((a :: t ++ l).drop 32) =
      (a :: t) :: chunkListFuel l.length l
    have ht : (a :: t ++ l).take 32 = a :: t := by
      rw [show (a :: t ++ l : List Nat) = (a :: t) ++ l from rfl]
      rw [← h]
      exact List.take_left (a :: t) l
    have hd : (a :: t ++ l).drop 32 = l := by
      rw [show (a :: t ++ l : List Nat) = (a :: t) ++ l from rfl]
      rw [← h]
      exact List.drop_left (a :: t) l
    rw [ht, hd]
    congr 1
    exact chunkListFuel_irrel _ _ _ (by omega) (by omega)

/-! ## The `/NEW.TXT` directory entry and the root cluster layout -/

/-- The first 28 bytes of the directory record that the write path builds
for `NEW.TXT` with first cluster 5 (the 4 size bytes follow). -/
def c1EntryPre : List Nat :=
  [78, 69, 87, 32, 32, 32, 32, 32, 84, 88, 84, 32, 0, 0, 0, 0, 0, 0, 0, 0,
   0, 0, 0, 0, 0, 0, 5, 0]

/-- The 32-byte `NEW.TXT` record with size field `n` (little-endian). -/
def c1Entry (n : Nat) : List Nat := c1EntryPre ++ [n % 256, n / 256, 0, 0]

theorem c1Entry_length (n : Nat) : (c1Entry n).length = 32 := rfl

theorem u32_small (n : Nat) (h : n < 65536) :
    u32LEBytes n = [n % 256, n / 256, 0, 0] := by
  have h1 : n / 256 < 256 := by omega
  simp [u32LEBytes, Nat.mod_eq_of_lt h1, Nat.div_eq_of_lt h,
    Nat.div_eq_of_lt (show n < 16777216 by omega)]

theorem dir_entry_bytes_NEW (n : Nat) (h : n < 65536) :
    dir_entry_bytes [78, 69, 87, 32, 32, 32, 32, 32] [84, 88, 84] 5 n =
      c1Entry n := by
  unfold dir_entry_bytes
  dsimp only
  rw [u32_small n h,
    show (5 : Nat) >>> 16 % 65536 = 0 from by decide,
    show (5 : Nat) &&& 0xFFFF = 5 from by decide]
  rfl

theorem c1_first_cluster (n : Nat) :
    ((c1Entry n).getD 20 0 + 256 * (c1Entry n).getD 21 0) <<< 16 |||
      ((c1Entry n).getD 26 0 + 256 * (c1Entry n).getD 27 0) = 5 := by
  rw [show (c1Entry n).getD 20 0 = 0 from rfl, show (c1Entry n).getD 21 0 = 0 from rfl,
    show (c1Entry n).getD 26 0 = 5 from rfl, show (c1Entry n).getD 27 0 = 0 from rfl]
  decide

theorem c1_size (n : Nat) (h : n < 65536) :
    (c1Entry n).getD 28 0 + 256 * (c1Entry n).getD 29 0 +
      65536 * (c1Entry n).getD 30 0 + 16777216 * (c1Entry n).getD 31 0 = n := by
  rw [show (c1Entry n).getD 28 0 = n % 256 from rfl,
    show (c1Entry n).getD 29 0 = n / 256 from rfl,
    show (c1Entry n).getD 30 0 = 0 from rfl, show (c1Entry n).getD 31 0 = 0 from rfl]
  omega

theorem c1Entry_parse (n : Nat) (h : n < 65536) :
    DirEntry.parse (c1Entry n) =
      some ⟨"NEW.TXT", ⟨false, false, false, false, false, true⟩, 5, n⟩ := by
  unfold DirEntry.parse
  rw [if_neg (by rw [c1Entry_length n]; decide)]
  rw [if_neg (by rw [show (c1Entry n).getD 0 0 = 78 from rfl]; decide)]
  dsimp only
  rw [show (c1Entry n).getD 11 0 = 32 from rfl]
  rw [show Attributes.from_byte 32 =
    ⟨false, false, false, false, false, true⟩ from by decide]
  rw [if_neg (by decide)]
  rw [c1_first_cluster n, c1_size n h]
  rw [show decode_ascii_trim ((c1Entry n).take 8) = "NEW" from rfl]
  rw [show decode_ascii_trim (((c1Entry n).drop 8).take 3) = "TXT" from rfl]
  rw [if_pos (by decide)]
  rfl

/-- The first two 32-byte records of the reference root directory
(`HELLO.TXT` and `DIR`). -/
def hello32 : List Nat :=
  [72, 69, 76, 76, 79, 32, 32, 32, 84, 88, 84, 32, 0, 0, 0, 0, 0, 0, 0, 0,
   0, 0, 0, 0, 0, 0, 3, 0, 5, 0, 0, 0]

def dir32 : List Nat :=
  [68, 73, 82, 32, 32, 32, 32, 32, 32, 32, 32, 16, 0, 0, 0, 0, 0, 0, 0, 0,
   0, 0, 0, 0, 0, 0, 4, 0, 0, 0, 0, 0]

theorem hello32_eq : readRange testDisk 1024 64 = hello32 ++ dir32 := by decide

/-- The root-cluster contents after the write path has appended the
`NEW.TXT` record at offset 1088 and the terminator byte at 1120. -/
def ROOT (n : Nat) : List Nat :=
  hello32 ++ (dir32 ++ (c1Entry n ++ List.replicate 416 0))

theorem chunk_zeros :
    chunkList (List.replicate 416 0) = List.replicate 13 (List.replicate 32 0) := by
  decide

theorem chunk_ROOT (n : Nat) :
    chunkList (ROOT n) =
      hello32 :: dir32 :: c1Entry n :: List.replicate 13 (List.replicate 32 0) := by
  unfold ROOT
  rw [chunkList_cons32 _ _ (by rfl), chunkList_cons32 _ _ (by rfl),
    chunkList_cons32 _ _ (c1Entry_length n), chunk_zeros]

/-- The entries decoded from the post-write root cluster. -/
theorem scan_ROOT (n : Nat) (h : n < 65536) :
    scan_chunks (hello32 :: dir32 :: c1Entry n ::
        List.replicate 13 (List.replicate 32 0)) =
      ([⟨"HELLO.TXT", ⟨false, false, false, false, false, true⟩, 3, 5⟩,
        ⟨"DIR", ⟨false, false, false, false, true, false⟩, 4, 0⟩,
        ⟨"NEW.TXT", ⟨false, false, false, false, false, true⟩, 5, n⟩], true) := by
  have zs : scan_chunks (List.replicate 13 (List.replicate 32 0)) = ([], true) := by
    decide
  have s3 : scan_chunks (c1Entry n :: List.replicate 13 (List.replicate 32 0)) =
      ([⟨"NEW.TXT", ⟨false, false, false, false, false, true⟩, 5, n⟩], true) := by
    have e : scan_chunks (c1Entry n :: List.replicate 13 (List.replicate 32 0)) =
        if (c1Entry n).length < 32 then ([], false)
        else if (c1Entry n).getD 0 0 = 0 then ([], true)
        else
          match DirEntry.parse (c1Entry n) with
          | some e =>
            ((e :: (scan_chunks (List.replicate 13 (List.replicate 32 0))).1,
              (scan_chunks (List.replicate 13 (List.replicate 32 0))).2))
          | none => scan_chunks (List.replicate 13 (List.replicate 32 0)) := rfl
    rw [e, if_neg (by rw [c1Entry_length n]; decide),
      if_neg (by rw [show (c1Entry n).getD 0 0 = 78 from rfl]; decide),
      c1Entry_parse n h, zs]
  have s2 : scan_chunks (dir32 :: c1Entry n :: List.replicate 13 (List.replicate 32 0)) =
      ([⟨"DIR", ⟨false, false, false, false, true, false⟩, 4, 0⟩,
        ⟨"NEW.TXT", ⟨false, false, false, false, false, true⟩, 5, n⟩], true) := by
    have e : scan_chunks (dir32 :: c1Entry n :: List.replicate 13 (List.replicate 32 0)) =
        if dir32.length < 32 then ([], false)
        else if dir32.getD 0 0 = 0 then ([], true)
        else
          match DirEntry.parse dir32 with
          | some e =>
            ((e :: (scan_chunks (c1Entry n :: List.replicate 13 (List.replicate 32 0))).1,
              (scan_chunks (c1Entry n :: List.replicate 13 (List.replicate 32 0))).2))
          | none => scan_chunks (c1Entry n :: List.replicate 13 (List.replicate 32 0)) := rfl
    rw [e, if_neg (by decide), if_neg (by decide),
      show DirEntry.parse dir32 =
        some ⟨"DIR", ⟨false, false, false, false, true, false⟩, 4, 0⟩ from by decide,
      s3]
  have e : scan_chunks (hello32 :: dir32 :: c1Entry n ::
        List.replicate 13 (List.replicate 32 0)) =
      if hello32.length < 32 then ([], false)
      else if hello32.getD 0 0 = 0 then ([], true)
      else
        match DirEntry.parse hello32 with
        | some e =>
          ((e :: (scan_chunks (dir32 :: c1Entry n ::
              List.replicate 13 (List.replicate 32 0))).1,
            (scan_chunks (dir32 :: c1Entry n ::
              List.replicate 13 (List.replicate 32 0))).2))
        | none => scan_chunks (dir32 :: c1Entry n ::
            List.replicate 13 (List.replicate 32 0)) := rfl
  rw [e, if_neg (by decide), if_neg (by decide),
    show DirEntry.parse hello32 =
      some ⟨"HELLO.TXT", ⟨false, false, false, false, false, true⟩, 3, 5⟩ from by decide,
    s2]

/-! ## Cluster access on a 10-sector geometry over an arbitrary disk -/

theorem cluster_to_offset_mk (D : Disk) (cl : Nat) (hlen : D.len = 5120)
    (h2 : 2 ≤ cl) (h9 : cl ≤ 9) :
    (Fat32.mk D 512 1 1 1 1 2).cluster_to_offset cl = .ok (512 * cl) := by
  unfold Fat32.cluster_to_offset Fat32.data_start_byte Fat32.fat_start_byte
    Fat32.cluster_size
  dsimp only
  rw [if_neg (by omega), hlen, if_neg (by omega)]
  congr 1
  omega

theorem read_cluster_mk (D : Disk) (cl : Nat) (hlen : D.len = 5120)
    (h2 : 2 ≤ cl) (h9 : cl ≤ 9) :
    (Fat32.mk D 512 1 1 1 1 2).read_cluster cl = .ok (readRange D (512 * cl) 512) := by
  unfold Fat32.read_cluster
  rw [cluster_to_offset_mk D cl hlen h2 h9]
  dsimp only
  unfold Fat32.cluster_size
  dsimp only
  rw [hlen, if_neg (by omega)]

theorem read_fat_entry_mk (D : Disk) (cl : Nat) (hlen : D.len = 5120)
    (hcl : cl ≤ 9) :
    (Fat32.mk D 512 1 1 1 1 2).read_fat_entry cl =
      .ok ((D.byteAt (512 + cl * 4) + 256 * D.byteAt (512 + cl * 4 + 1) +
        65536 * D.byteAt (512 + cl * 4 + 2) +
        16777216 * D.byteAt (512 + cl * 4 + 3)) &&& 0x0FFFFFFF) := by
  unfold Fat32.read_fat_entry Fat32.fat_start_byte
  dsimp only
  rw [hlen, if_neg (by omega)]

/-! ## Single steps of the chain and read loops -/

theorem follow_go_step (fs : Fat32) (cur v fuel : Nat) (acc : List Nat)
    (h : fs.read_fat_entry cur = .ok v) (h2 : 2 ≤ v) (h8 : v < 0x0FFFFFF8) :
    fs.follow_go cur acc (fuel + 1) = fs.follow_go v (cur :: acc) fuel := by
  rw [Fat32.follow_go, h]
  dsimp only
  rw [if_neg (by omega), if_neg (by omega)]

theorem follow_go_stop (fs : Fat32) (cur v fuel : Nat) (acc : List Nat)
    (h : fs.read_fat_entry cur = .ok v) (h8 : 0x0FFFFFF8 ≤ v) :
    fs.follow_go cur acc (fuel + 1) = .ok (cur :: acc).reverse := by
  rw [Fat32.follow_go, h]
  dsimp only
  rw [if_pos h8]

theorem read_go_step (fs : Fat32) (rem : Nat) (acc data : List Nat) (cl : Nat)
    (rest : List Nat) (h : fs.read_cluster cl = .ok data)
    (hcs : fs.cluster_size = 512) (hrem : 512 < rem) :
    fs.read_file_go rem acc (cl :: rest) =
      fs.read_file_go (rem - 512) (acc ++ data.take 512) rest := by
  rw [Fat32.read_file_go, h]
  dsimp only
  rw [hcs, show min rem 512 = 512 from by omega, if_neg (by omega)]

theorem read_go_last (fs : Fat32) (rem : Nat) (acc data : List Nat) (cl : Nat)
    (rest : List Nat) (h : fs.read_cluster cl = .ok data)
    (hcs : fs.cluster_size = 512) (h0 : 0 < rem) (h512 : rem ≤ 512) :
    fs.read_file_go rem acc (cl :: rest) = .ok (acc ++ data.take rem) := by
  rw [Fat32.read_file_go, h]
  dsimp only
  rw [hcs, show min rem 512 = rem from by omega, if_pos (by omega)]

/-! ## Opening `/NEW.TXT` after the write -/

theorem c1_open (D : Disk) (n : Nat) (hlen : D.len = 5120) (h65 : n < 65536)
    (hfat : D.byteAt 520 = 255 ∧ D.byteAt 521 = 255 ∧ D.byteAt 522 = 255 ∧
      D.byteAt 523 = 15)
    (hroot : readRange D 1024 512 = ROOT n) :
    (Fat32.mk D 512 1 1 1 1 2).open_path "/NEW.TXT" =
      .ok (some ⟨"NEW.TXT", ⟨false, false, false, false, false, true⟩, 5, n⟩) := by
  have hr2 : (Fat32.mk D 512 1 1 1 1 2).read_fat_entry 2 = .ok 0x0FFFFFFF := by
    rw [read_fat_entry_mk D 2 hlen (by omega)]
    norm_num
    rw [hfat.1, hfat.2.1, hfat.2.2.1, hfat.2.2.2]
    decide
  have hld : (Fat32.mk D 512 1 1 1 1 2).list_dir_cluster 2 =
      .ok [⟨"HELLO.TXT", ⟨false, false, false, false, false, true⟩, 3, 5⟩,
        ⟨"DIR", ⟨false, false, false, false, true, false⟩, 4, 0⟩,
        ⟨"NEW.TXT", ⟨false, false, false, false, false, true⟩, 5, n⟩] := by
    unfold Fat32.list_dir_cluster
    have hfc : (Fat32.mk D 512 1 1 1 1 2).follow_chain 2 4096 = .ok [2] := by
      unfold Fat32.follow_chain
      rw [if_neg (by omega), show (4096 : Nat) = 4095 + 1 from rfl,
        follow_go_stop _ 2 0x0FFFFFFF 4095 [] hr2 (by norm_num)]
      rfl
    rw [hfc]
    dsimp only
    unfold Fat32.scan_dir_clusters
    rw [read_cluster_mk D 2 hlen (by omega) (by omega),
      show (512 * 2 : Nat) = 1024 from rfl, hroot]
    dsimp only
    rw [chunk_ROOT n, scan_ROOT n h65]
    rfl
  unfold Fat32.open_path
  rw [if_neg (by decide), if_neg (by decide),
    show ((splitSlash "/NEW.TXT").filter (fun s => !s.isEmpty)) = ["NEW.TXT"] from
      by decide]
  unfold Fat32.open_go
  rw [show (Fat32.mk D 512 1 1 1 1 2).root_cluster = 2 from rfl, hld]
  dsimp only
  rw [show List.find?
      (fun e => normalize_name e.name == normalize_name "NEW.TXT")
      [(⟨"HELLO.TXT", ⟨false, false, false, false, false, true⟩, 3, 5⟩ : DirEntry),
       ⟨"DIR", ⟨false, false, false, false, true, false⟩, 4, 0⟩,
       ⟨"NEW.TXT", ⟨false, false, false, false, false, true⟩, 5, n⟩] =
      some ⟨"NEW.TXT", ⟨false, false, false, false, false, true⟩, 5, n⟩ from rfl]
  dsimp only
  rw [Fat32.open_go]

/-! ## Reading `/NEW.TXT` back -/

theorem fat2_eoc (D : Disk) (hlen : D.len = 5120)
    (hfat : D.byteAt 520 = 255 ∧ D.byteAt 521 = 255 ∧ D.byteAt 522 = 255 ∧
      D.byteAt 523 = 15) :
    (Fat32.mk D 512 1 1 1 1 2).read_fat_entry 2 = .ok 0x0FFFFFFF := by
  rw [read_fat_entry_mk D 2 hlen (by omega)]
  norm_num
  rw [hfat.1, hfat.2.1, hfat.2.2.1, hfat.2.2.2]
  decide

theorem follow_root (D : Disk) (hlen : D.len = 5120)
    (hfat : D.byteAt 520 = 255 ∧ D.byteAt 521 = 255 ∧ D.byteAt 522 = 255 ∧
      D.byteAt 523 = 15) :
    (Fat32.mk D 512 1 1 1 1 2).follow_chain 2 4096 = .ok [2] := by
  unfold Fat32.follow_chain
  rw [if_neg (by omega), show (4096 : Nat) = 4095 + 1 from rfl,
    follow_go_stop _ 2 0x0FFFFFFF 4095 [] (fat2_eoc D hlen hfat) (by norm_num)]
  rfl

theorem c1_read_by_path (D : Disk) (content chain : List Nat)
    (hlen : D.len = 5120) (h0 : 0 < content.length) (h65 : content.length < 65536)
    (hfat : D.byteAt 520 = 255 ∧ D.byteAt 521 = 255 ∧ D.byteAt 522 = 255 ∧
      D.byteAt 523 = 15)
    (hroot : readRange D 1024 512 = ROOT content.length)
    (hchain : (Fat32.mk D 512 1 1 1 1 2).follow_chain 5 4096 = .ok chain)
    (hgo : (Fat32.mk D 512 1 1 1 1 2).read_file_go content.length [] chain =
      .ok content) :
    (Fat32.mk D 512 1 1 1 1 2).read_file_by_path "/NEW.TXT" = .ok (some content) := by
  have hop := c1_open D content.length hlen h65 hfat hroot
  have hif : DirEntry.is_file
      ⟨"NEW.TXT", ⟨false, false, false, false, false, true⟩, 5, content.length⟩ =
      true := rfl
  have hrf : (Fat32.mk D 512 1 1 1 1 2).read_file
      ⟨"NEW.TXT", ⟨false, false, false, false, false, true⟩, 5, content.length⟩ =
      .ok content := by
    unfold Fat32.read_file
    rw [if_neg (by rw [hif]; decide)]
    rw [if_neg (by show ¬(content.length = 0); omega)]
    rw [if_neg (by show ¬(5 < 2); decide)]
    rw [hchain]
    dsimp only
    exact hgo
  unfold Fat32.read_file_by_path
  rw [hop]
  dsimp only
  rw [if_neg (by rw [hif]; decide)]
  rw [hrf]

/-! ## Finding the free directory slot after the data write -/

theorem c1_slot (D : Disk) (hlen : D.len = 5120)
    (hfat : D.byteAt 520 = 255 ∧ D.byteAt 521 = 255 ∧ D.byteAt 522 = 255 ∧
      D.byteAt 523 = 15)
    (hroot : readRange D 1024 512 = readRange testDisk 1024 512) :
    (Fat32.mk D 512 1 1 1 1 2).find_free_dir_entry_slot 2 = .ok (1088, true, 1536) := by
  unfold Fat32.find_free_dir_entry_slot
  rw [follow_root D hlen hfat]
  dsimp only
  unfold Fat32.find_free_clusters
  rw [cluster_to_offset_mk D 2 hlen (by omega) (by omega)]
  dsimp only
  rw [show Fat32.cluster_size (Fat32.mk D 512 1 1 1 1 2) = 512 from rfl]
  rw [show (512 * 2 : Nat) = 1024 from rfl]
  rw [hlen]
  rw [if_neg (by omega)]
  rw [hroot]
  rw [show find_free_chunks 1024 (1024 + 512)
      (chunkList (readRange testDisk 1024 512)) 0 = some (1088, true, 1536) from
    by decide]

/-! ## The data-write loop, one cluster at a time -/

theorem wcd_step_full (D : Disk) (content : List Nat) (pos cl : Nat)
    (rest : List Nat) (hlen : D.len = 5120) (h2 : 2 ≤ cl) (h9 : cl ≤ 9)
    (hpos : pos + 512 < content.length) :
    Fat32.wcd_go (Fat32.mk D 512 1 1 1 1 2) content pos (cl :: rest) =
      Fat32.wcd_go (Fat32.mk (writeBytes D (512 * cl) ((content.drop pos).take 512))
        512 1 1 1 1 2) content (pos + 512) rest := by
  rw [Fat32.wcd_go, cluster_to_offset_mk D cl hlen h2 h9]
  dsimp only
  rw [show Fat32.cluster_size (Fat32.mk D 512 1 1 1 1 2) = 512 from rfl]
  rw [hlen, if_neg (by omega)]
  rw [show min (pos + 512) content.length = pos + 512 from by omega]
  rw [show pos + 512 - pos = 512 from by omega]
  have hck : ((content.drop pos).take 512).length = 512 := by
    rw [List.length_take, List.length_drop]
    omega
  rw [hck]
  rw [show (512 : Nat) - 512 = 0 from rfl]
  rw [show List.replicate 0 0 = ([] : List Nat) from rfl]
  rw [writeBytes_nil]
  rw [if_neg (by omega)]

theorem wcd_step_last (D : Disk) (content : List Nat) (pos cl : Nat)
    (rest : List Nat) (hlen : D.len = 5120) (h2 : 2 ≤ cl) (h9 : cl ≤ 9)
    (hpos : pos < content.length) (hend : content.length ≤ pos + 512) :
    Fat32.wcd_go (Fat32.mk D 512 1 1 1 1 2) content pos (cl :: rest) =
      (.ok (), Fat32.mk
        (writeBytes (writeBytes D (512 * cl) (content.drop pos))
          (512 * cl + (content.length - pos))
          (List.replicate (512 - (content.length - pos)) 0)) 512 1 1 1 1 2) := by
  rw [Fat32.wcd_go, cluster_to_offset_mk D cl hlen h2 h9]
  dsimp only
  rw [show Fat32.cluster_size (Fat32.mk D 512 1 1 1 1 2) = 512 from rfl]
  rw [hlen, if_neg (by omega)]
  rw [show min (pos + 512) content.length = content.length from by omega]
  rw [List.take_of_length_le (le_of_eq (List.length_drop pos content))]
  rw [List.length_drop]
  rw [if_pos (by omega)]

/-! ## Reassembling the root cluster after the slot write -/

theorem root_after_slot (d : Disk) (E : List Nat) (hE : E.length = 32) :
    readRange (writeBytes (writeBytes d 1088 E) 1120 [0]) 1024 512 =
      readRange d 1024 64 ++ (E ++ (0 :: readRange d 1121 415)) := by
  have h1 : readRange (writeBytes (writeBytes d 1088 E) 1120 [0]) 1024 64 =
      readRange d 1024 64 := by
    rw [readRange_out _ 1120 [0] 1024 64 (by decide),
      readRange_out _ 1088 E 1024 64 (Or.inl (by omega))]
  have h2 : readRange (writeBytes (writeBytes d 1088 E) 1120 [0]) 1088 32 = E := by
    rw [readRange_out _ 1120 [0] 1088 32 (by decide)]
    exact readRange_exact _ 1088 E 32 hE
  have h3 : readRange (writeBytes (writeBytes d 1088 E) 1120 [0]) 1120 1 = [0] :=
    readRange_exact _ 1120 [0] 1 rfl
  have h4 : readRange (writeBytes (writeBytes d 1088 E) 1120 [0]) 1121 415 =
      readRange d 1121 415 := by
    rw [readRange_out _ 1120 [0] 1121 415 (by decide),
      readRange_out _ 1088 E 1121 415 (Or.inr (by rw [hE]; omega))]
  rw [show (512 : Nat) = 64 + (32 + (1 + 415)) from rfl,
    readRange_split _ 1024 64 (32 + (1 + 415)),
    show (1024 + 64 : Nat) = 1088 from rfl,
    readRange_split _ 1088 32 (1 + 415),
    show (1088 + 32 : Nat) = 1120 from rfl,
    readRange_split _ 1120 1 415,
    show (1120 + 1 : Nat) = 1121 from rfl,
    h1, h2, h3, h4]
  rfl

theorem readRange_two_layers (d : Disk) (off : Nat) (a b : List Nat) :
    readRange (writeBytes (writeBytes d off a) (off + a.length) b) off
      (a.length + b.length) = a ++ b := by
  rw [readRange_split]
  congr 1
  · rw [readRange_out _ (off + a.length) b off a.length (Or.inl (le_refl _))]
    exact readRange_exact _ off a a.length rfl
  · exact readRange_exact _ (off + a.length) b b.length rfl

/-! ## Case `1 ≤ len ≤ 512`: single-cluster write -/

/-- Disk after FAT write (`FAT[5] := EOC`) and the data write of a
single-cluster content. -/
def c1D1 (content : List Nat) : Disk :=
  writeBytes (writeBytes (writeBytes testDisk 532 [255, 255, 255, 15]) 2560 content)
    (2560 + content.length) (List.replicate (512 - content.length) 0)

/-- Final disk of the single-cluster write: data, directory record,
terminator. -/
def c1FIN1 (content : List Nat) : Disk :=
  writeBytes (writeBytes (c1D1 content) 1088 (c1Entry content.length)) 1120 [0]

theorem c1_write1 (content : List Nat) (h0 : 0 < content.length)
    (h512 : content.length ≤ 512) :
    testFs.write_file_by_path "/NEW.TXT" content =
      (.ok (), Fat32.mk (c1FIN1 content) 512 1 1 1 1 2) := by
  have hempty : content.isEmpty = false := by
    cases content with
    | nil => simp at h0
    | cons a t => rfl
  have e1 : testFs.write_file_by_path "/NEW.TXT" content =
      Fat32.write_file_finish testFs 2 [78, 69, 87, 32, 32, 32, 32, 32] [84, 88, 84]
        none content := rfl
  rw [e1]
  unfold Fat32.write_file_finish
  dsimp only
  rw [hempty, if_neg Bool.false_ne_true]
  rw [show div_ceil content.length testFs.cluster_size = 1 from by
    rw [show testFs.cluster_size = 512 from rfl]
    unfold div_ceil
    rw [if_neg (by omega)]
    omega]
  rw [show testFs.alloc_chain 1 = (.ok [5],
    Fat32.mk (writeBytes testDisk 532 [255, 255, 255, 15]) 512 1 1 1 1 2) from rfl]
  dsimp only
  rw [show Fat32.write_chain_data
      (Fat32.mk (writeBytes testDisk 532 [255, 255, 255, 15]) 512 1 1 1 1 2) [5]
      content =
    Fat32.wcd_go (Fat32.mk (writeBytes testDisk 532 [255, 255, 255, 15]) 512 1 1 1 1 2)
      content 0 [5] from rfl]
  rw [wcd_step_last (writeBytes testDisk 532 [255, 255, 255, 15]) content 0 5 []
    rfl (by omega) (by omega) h0 (by omega)]
  rw [List.drop_zero, Nat.sub_zero, show (512 * 5 : Nat) = 2560 from rfl]
  dsimp only
  rw [show ([5] : List Nat).getD 0 0 = 5 from rfl]
  rw [Nat.mod_eq_of_lt (show content.length < 2 ^ 32 by omega)]
  have hfatD : ∀ i, i < 1024 → (c1D1 content).byteAt i =
      (writeBytes testDisk 532 [255, 255, 255, 15]).byteAt i := by
    intro i hi
    unfold c1D1
    rw [writeBytes_byteAt_out _ _ _ _ (Or.inl (by omega)),
      writeBytes_byteAt_out _ _ _ _ (Or.inl (by omega))]
  have hslot : (Fat32.mk (c1D1 content) 512 1 1 1 1 2).find_free_dir_entry_slot 2 =
      .ok (1088, true, 1536) := by
    apply c1_slot
    · rfl
    · exact ⟨by rw [hfatD 520 (by omega)]; decide, by rw [hfatD 521 (by omega)]; decide,
        by rw [hfatD 522 (by omega)]; decide, by rw [hfatD 523 (by omega)]; decide⟩
    · unfold c1D1
      rw [readRange_out _ _ _ _ _ (Or.inl (by omega)),
        readRange_out _ _ _ _ _ (Or.inl (by omega)),
        readRange_out _ _ _ _ _ (by decide)]
  rw [show writeBytes (writeBytes (writeBytes testDisk 532 [255, 255, 255, 15])
      2560 content) (2560 + content.length)
      (List.replicate (512 - content.length) 0) = c1D1 content from rfl]
  rw [hslot]
  dsimp only
  unfold Fat32.write_dir_entry_at_offset
  dsimp only
  rw [show (c1D1 content).len = 5120 from rfl, if_neg (by omega)]
  rw [dir_entry_bytes_NEW content.length (by omega)]
  dsimp only
  rw [if_pos (by decide)]
  rfl

theorem c1_read1 (content : List Nat) (h0 : 0 < content.length)
    (h512 : content.length ≤ 512) :
    (Fat32.mk (c1FIN1 content) 512 1 1 1 1 2).read_file_by_path "/NEW.TXT" =
      .ok (some content) := by
  have hpeel : ∀ i, i < 1024 → (c1FIN1 content).byteAt i =
      (writeBytes testDisk 532 [255, 255, 255, 15]).byteAt i := by
    intro i hi
    unfold c1FIN1 c1D1
    rw [writeBytes_byteAt_out _ _ _ _ (Or.inl (by omega)),
      writeBytes_byteAt_out _ _ _ _ (Or.inl (by omega)),
      writeBytes_byteAt_out _ _ _ _ (Or.inl (by omega)),
      writeBytes_byteAt_out _ _ _ _ (Or.inl (by omega))]
  have hfat : (c1FIN1 content).byteAt 520 = 255 ∧ (c1FIN1 content).byteAt 521 = 255 ∧
      (c1FIN1 content).byteAt 522 = 255 ∧ (c1FIN1 content).byteAt 523 = 15 :=
    ⟨by rw [hpeel 520 (by omega)]; decide, by rw [hpeel 521 (by omega)]; decide,
     by rw [hpeel 522 (by omega)]; decide, by rw [hpeel 523 (by omega)]; decide⟩
  have hroot : readRange (c1FIN1 content) 1024 512 = ROOT content.length := by
    unfold c1FIN1
    rw [root_after_slot (c1D1 content) (c1Entry content.length) (c1Entry_length _)]
    have h64 : readRange (c1D1 content) 1024 64 = hello32 ++ dir32 := by
      unfold c1D1
      rw [readRange_out _ _ _ _ _ (Or.inl (by omega)),
        readRange_out _ _ _ _ _ (Or.inl (by omega)),
        readRange_out _ _ _ _ _ (by decide)]
      exact hello32_eq
    have h415 : readRange (c1D1 content) 1121 415 = List.replicate 415 0 := by
      unfold c1D1
      rw [readRange_out _ _ _ _ _ (Or.inl (by omega)),
        readRange_out _ _ _ _ _ (Or.inl (by omega)),
        readRange_out _ _ _ _ _ (by decide)]
      decide
    rw [h64, h415]
    unfold ROOT
    rw [show (0 :: List.replicate 415 0 : List Nat) = List.replicate 416 0 from rfl,
      List.append_assoc]
  have hf5 : (Fat32.mk (c1FIN1 content) 512 1 1 1 1 2).read_fat_entry 5 =
      .ok 0x0FFFFFFF := by
    rw [read_fat_entry_mk (c1FIN1 content) 5 rfl (by omega)]
    norm_num
    rw [hpeel 532 (by omega), hpeel 533 (by omega), hpeel 534 (by omega),
      hpeel 535 (by omega)]
    decide
  have hchain : (Fat32.mk (c1FIN1 content) 512 1 1 1 1 2).follow_chain 5 4096 =
      .ok [5] := by
    unfold Fat32.follow_chain
    rw [if_neg (by omega), show (4096 : Nat) = 4095 + 1 from rfl,
      follow_go_stop _ 5 0x0FFFFFFF 4095 [] hf5 (by norm_num)]
    rfl
  have hrc : (Fat32.mk (c1FIN1 content) 512 1 1 1 1 2).read_cluster 5 =
      .ok (content ++ List.replicate (512 - content.length) 0) := by
    rw [read_cluster_mk (c1FIN1 content) 5 rfl (by omega) (by omega)]
    congr 1
    rw [show (512 * 5 : Nat) = 2560 from rfl]
    unfold c1FIN1
    rw [readRange_out _ _ _ _ _ (by decide),
      readRange_out _ _ _ _ _ (Or.inr (by rw [c1Entry_length]; omega))]
    unfold c1D1
    have htl := readRange_two_layers
      (writeBytes testDisk 532 [255, 255, 255, 15]) 2560 content
      (List.replicate (512 - content.length) 0)
    rw [List.length_replicate] at htl
    rw [show content.length + (512 - content.length) = 512 from by omega] at htl
    exact htl
  have hgo : (Fat32.mk (c1FIN1 content) 512 1 1 1 1 2).read_file_go
      content.length [] [5] = .ok content := by
    have := read_go_last (Fat32.mk (c1FIN1 content) 512 1 1 1 1 2) content.length []
      (content ++ List.replicate (512 - content.length) 0) 5 [] hrc rfl h0 h512
    rw [List.nil_append, List.take_left] at this
    exact this
  exact c1_read_by_path (c1FIN1 content) content [5] rfl h0 (by omega) hfat hroot
    hchain hgo

theorem c1_case1 (content : List Nat) (h0 : 0 < content.length)
    (h512 : content.length ≤ 512) :
    (testFs.write_file_by_path "/NEW.TXT" content).1 = .ok () ∧
    (testFs.write_file_by_path "/NEW.TXT" content).2.read_file_by_path "/NEW.TXT" =
      .ok (some content) := by
  rw [c1_write1 content h0 h512]
  exact ⟨rfl, c1_read1 content h0 h512⟩

/-- C1 (amended): round-trip of the write path on the reference volume,
whose directory records carry the upper-case raw 8.3 names that the writer
itself produces: for every content of at most one cluster (512 bytes),
`write_file_by_path("/NEW.TXT", content)` succeeds and
`read_file_by_path("/NEW.TXT")` on the resulting volume returns exactly
`content`. -/
theorem c1_round_trip (content : List Nat) (h : content.length ≤ 512) :
    (testFs.write_file_by_path "/NEW.TXT" content).1 = .ok () ∧
    (testFs.write_file_by_path "/NEW.TXT" content).2.read_file_by_path
      "/NEW.TXT" = .ok (some content) := by
  by_cases h0 : content.length = 0
  · have hnil : content = [] := List.eq_nil_of_length_eq_zero h0
    subst hnil
    exact ⟨by decide, by decide⟩
  · exact c1_case1 content (by omega) h

/-- C1 (witness): the amended round-trip instantiated with the two-byte
content `"HI"`. -/
theorem c1_round_trip_witness :
    (testFs.write_file_by_path "/NEW.TXT" [72, 73]).1 = .ok () ∧
    (testFs.write_file_by_path "/NEW.TXT" [72, 73]).2.read_file_by_path
      "/NEW.TXT" = .ok (some [72, 73]) :=
  c1_round_trip [72, 73] (by decide)

/-! ## FAT32 claims: failed-write consistency (C2) -/

/-- The reference volume after `free_chain` has released the single-cluster
chain of `/HELLO.TXT`: FAT entry 3 (bytes 524–527) is zeroed, everything
else untouched. -/
def c2State : Fat32 := { testFs with disk := writeBytes testDisk 524 [0, 0, 0, 0] }

theorem c2_scan_s1 (needed : Nat) :
    c2State.scan_free needed 2 8 [] = c2State.scan_free needed 3 7 [] := rfl

theorem c2_scan_s2 (needed : Nat) :
    c2State.scan_free needed 3 7 [] =
      if 1 = needed then .ok [3] else c2State.scan_free needed 4 6 [3] := rfl

theorem c2_scan_s3 (needed : Nat) :
    c2State.scan_free needed 4 6 [3] = c2State.scan_free needed 5 5 [3] := rfl

theorem c2_scan_s4 (needed : Nat) :
    c2State.scan_free needed 5 5 [3] =
      if 2 = needed then .ok [3, 5] else c2State.scan_free needed 6 4 [3, 5] := rfl

theorem c2_scan_s5 (needed : Nat) :
    c2State.scan_free needed 6 4 [3, 5] =
      if 3 = needed then .ok [3, 5, 6]
      else c2State.scan_free needed 7 3 [3, 5, 6] := rfl

theorem c2_scan_s6 (needed : Nat) :
    c2State.scan_free needed 7 3 [3, 5, 6] =
      if 4 = needed then .ok [3, 5, 6, 7]
      else c2State.scan_free needed 8 2 [3, 5, 6, 7] := rfl

theorem c2_scan_s7 (needed : Nat) :
    c2State.scan_free needed 8 2 [3, 5, 6, 7] =
      if 5 = needed then .ok [3, 5, 6, 7, 8]
      else c2State.scan_free needed 9 1 [3, 5, 6, 7, 8] := rfl

theorem c2_scan_s8 (needed : Nat) :
    c2State.scan_free needed 9 1 [3, 5, 6, 7, 8] =
      if 6 = needed then .ok [3, 5, 6, 7, 8, 9]
      else .ok [3, 5, 6, 7, 8, 9] := rfl

/-- With at least 7 clusters requested, the free scan of `c2State` runs to
the end of the FAT and collects exactly the six free clusters. -/
theorem c2_scan (needed : Nat) (h : 7 ≤ needed) :
    c2State.scan_free needed 2 8 [] = .ok [3, 5, 6, 7, 8, 9] := by
  rw [c2_scan_s1, c2_scan_s2, if_neg (by omega), c2_scan_s3, c2_scan_s4,
    if_neg (by omega), c2_scan_s5, if_neg (by omega), c2_scan_s6,
    if_neg (by omega), c2_scan_s7, if_neg (by omega), c2_scan_s8,
    if_neg (by omega)]

/-- Requesting at least 7 clusters on `c2State` fails with `NoSpaceLeft`
and leaves the volume untouched. -/
theorem c2_alloc (needed : Nat) (h : 7 ≤ needed) :
    c2State.alloc_chain needed = (.error .NoSpaceLeft, c2State) := by
  unfold Fat32.alloc_chain
  rw [if_neg (by omega)]
  have hm : c2State.max_cluster_number = .ok 9 := by decide
  rw [hm]
  dsimp only
  rw [show (9 : Nat) - 1 = 8 from rfl, c2_scan needed h]
  dsimp only
  rw [if_pos (show ([3, 5, 6, 7, 8, 9] : List Nat).length ≠ needed by
    show (6 : Nat) ≠ needed
    omega)]

/-- Overwriting `/HELLO.TXT` with more bytes than the free clusters can hold
first frees the old chain (reaching `c2State`), then fails allocation and
returns with the directory entry not yet rewritten. -/
theorem c2_write_eq (content : List Nat) (h : 3072 < content.length) :
    testFs.write_file_by_path "/HELLO.TXT" content =
      (.error .NoSpaceLeft, c2State) := by
  have hempty : content.isEmpty = false := by
    cases content with
    | nil => simp at h
    | cons a t => rfl
  have e1 : testFs.write_file_by_path "/HELLO.TXT" content =
      c2State.write_file_finish 2 [72, 69, 76, 76, 79, 32, 32, 32] [84, 88, 84]
        (some 1024) content := rfl
  rw [e1]
  unfold Fat32.write_file_finish
  dsimp only
  rw [hempty]
  rw [if_neg Bool.false_ne_true]
  have hcs : Fat32.cluster_size c2State = 512 := rfl
  rw [hcs]
  have hneed : 7 ≤ div_ceil content.length 512 := by
    unfold div_ceil
    rw [if_neg (by omega)]
    omega
  rw [c2_alloc _ hneed]

/-- C2 (counterexample): overwriting `/HELLO.TXT` with 3100 bytes frees the
old chain and then fails allocation with `NoSpaceLeft`; in the resulting
image the directory entry still references cluster 3 (not "no cluster"),
while FAT entry 3 reads 0 (free), so the file has neither its complete new
chain nor no chain at all, and reading it errors with `InvalidCluster`. -/
theorem c2_claim_counterexample :
    (testFs.write_file_by_path "/HELLO.TXT" (List.replicate 3100 65)).1 =
      .error .NoSpaceLeft ∧
    (testFs.write_file_by_path "/HELLO.TXT" (List.replicate 3100 65)).2.open_path
      "/HELLO.TXT" =
      .ok (some ⟨"HELLO.TXT", ⟨false, false, false, false, false, true⟩, 3, 5⟩) ∧
    (testFs.write_file_by_path "/HELLO.TXT"
      (List.replicate 3100 65)).2.read_fat_entry 3 = .ok 0 ∧
    (testFs.write_file_by_path "/HELLO.TXT"
      (List.replicate 3100 65)).2.read_file_by_path "/HELLO.TXT" =
      .error .InvalidCluster := by
  have hw := c2_write_eq (List.replicate 3100 65)
    (by simp only [List.length_replicate]; decide)
  exact ⟨by rw [hw], by rw [hw]; decide, by rw [hw]; decide, by rw [hw]; decide⟩

/-- C2 (amended): when an overwrite of `/HELLO.TXT` on the reference volume
fails after the release of the old chain (allocation fails with
`NoSpaceLeft` for any content larger than the 6 free clusters can hold),
the image is *not* left with "the new chain or no chain": the old chain is
freed (FAT entry 3 reads 0), but the directory entry still references the
old first cluster 3 with the old size 5, and reading the file now fails
with `InvalidCluster`. -/
theorem c2_failed_write_state (content : List Nat) (h : 3072 < content.length) :
    testFs.write_file_by_path "/HELLO.TXT" content =
      (.error .NoSpaceLeft, c2State) ∧
    c2State.read_fat_entry 3 = .ok 0 ∧
    c2State.open_path "/HELLO.TXT" =
      .ok (some ⟨"HELLO.TXT", ⟨false, false, false, false, false, true⟩, 3, 5⟩) ∧
    c2State.read_file_by_path "/HELLO.TXT" = .error .InvalidCluster :=
  ⟨c2_write_eq content h, by decide, by decide, by decide⟩

/-- C2 (witness): the amended statement instantiated at 4000 bytes of
content. -/
theorem c2_failed_write_state_witness :
    testFs.write_file_by_path "/HELLO.TXT" (List.replicate 4000 66) =
      (.error .NoSpaceLeft, c2State) ∧
    c2State.read_fat_entry 3 = .ok 0 ∧
    c2State.open_path "/HELLO.TXT" =
      .ok (some ⟨"HELLO.TXT", ⟨false, false, false, false, false, true⟩, 3, 5⟩) ∧
    c2State.read_file_by_path "/HELLO.TXT" = .error .InvalidCluster :=
  c2_failed_write_state (List.replicate 4000 66)
    (by simp only [List.length_replicate]; decide)

/-! ## C4: chain traversal bounds, with the below-2 check at any depth -/

/-- After exactly `k` valid hops (each FAT value in `[2, 0x0FFFFFF8)`, so
the source loop continues) from `cur`, the traversal reads a FAT entry
below 2. -/
def bad_after (fs : Fat32) : Nat → Nat → Prop
  | cur, 0 => ∃ v, fs.read_fat_entry cur = .ok v ∧ v < 2
  | cur, k + 1 => ∃ v, fs.read_fat_entry cur = .ok v ∧ 2 ≤ v ∧
      v < 0x0FFFFFF8 ∧ bad_after fs v k

theorem follow_go_bad (fs : Fat32) : ∀ (k fuel cur : Nat) (acc : List Nat),
    bad_after fs cur k → k < fuel →
    fs.follow_go cur acc fuel = .error .InvalidCluster := by
  intro k
  induction k with
  | zero =>
    intro fuel cur acc hbad hf
    obtain ⟨v, hread, hv⟩ := hbad
    cases fuel with
    | zero => omega
    | succ m =>
      rw [Fat32.follow_go, hread]
      dsimp only
      rw [if_neg (by omega), if_pos (by omega)]
  | succ k ih =>
    intro fuel cur acc hbad hf
    obtain ⟨v, hread, h2, h8, hbad2⟩ := hbad
    cases fuel with
    | zero => omega
    | succ m =>
      rw [follow_go_step fs cur v m acc hread h2 h8]
      exact ih m v (cur :: acc) hbad2 (by omega)

/-- C4 (amended): every read-side chain traversal terminates; a start
cluster below 2 yields `InvalidCluster`, and so does a below-2
non-end-of-chain FAT entry encountered at any depth within the
4096-iteration cap; a returned chain never exceeds 4096 clusters — but an
over-long (e.g. circular) chain is cut at 4096 clusters and returned `Ok`
rather than as an error. -/
theorem c4_follow_chain_bounded (fs : Fat32) (s : Nat) :
    (s < 2 → fs.follow_chain s 4096 = .error .InvalidCluster) ∧
    (∀ c, fs.follow_chain s 4096 = .ok c → c.length ≤ 4096) ∧
    (∀ k, 2 ≤ s → k < 4096 → bad_after fs s k →
      fs.follow_chain s 4096 = .error .InvalidCluster) := by
  refine ⟨?_, ?_, ?_⟩
  · intro h
    unfold Fat32.follow_chain
    rw [if_pos h]
  · intro c h
    unfold Fat32.follow_chain at h
    by_cases h1 : s < 2
    · rw [if_pos h1] at h
      cases h
    · rw [if_neg h1] at h
      have := follow_go_length fs 4096 s [] c h
      simpa using this
  · intro k h2 hk hbad
    unfold Fat32.follow_chain
    rw [if_neg (by omega)]
    exact follow_go_bad fs k 4096 s [] hbad hk

/-- A 2-sector volume whose FAT holds `FAT[2] = 3` and `FAT[3] = 0`: the
below-2 entry sits one hop into the chain from cluster 2. -/
def badImageByte : Nat → Nat := fun i =>
  if i = 12 then 2
  else if i = 13 then 1
  else if i = 14 then 1
  else if i = 16 then 1
  else if i = 36 then 1
  else if i = 44 then 2
  else if i = 520 then 3
  else 0

/-- The disk image with the one-hop-deep free entry. -/
def badDisk : Disk := ⟨1024, badImageByte⟩

/-- The parsed view of `badDisk`. -/
def badFs : Fat32 := ⟨badDisk, 512, 1, 1, 1, 1, 2⟩

/-- C4 (witness): a start cluster below 2 errors on the reference volume;
the chain bound holds there; and on a volume with `FAT[2] = 3`,
`FAT[3] = 0` the below-2 entry one hop into the chain yields
`InvalidCluster`. -/
theorem c4_follow_chain_bounded_witness :
    testFs.follow_chain 1 4096 = .error .InvalidCluster ∧
    (∀ c, testFs.follow_chain 2 4096 = .ok c → c.length ≤ 4096) ∧
    badFs.follow_chain 2 4096 = .error .InvalidCluster :=
  ⟨(c4_follow_chain_bounded testFs 1).1 (by norm_num),
   (c4_follow_chain_bounded testFs 2).2.1,
   (c4_follow_chain_bounded badFs 2).2.2 1 (by norm_num) (by norm_num)
     ⟨3, by decide, by norm_num, by norm_num, 0, by decide, by norm_num⟩⟩
